import Mathlib

/-!
# Fan-out ("tee") logger: shallow embedding of `teelogger.go`

The Go program keeps a map from sink name to a `subLogger` (a sink instance
plus the `logger.Info` it was built from) and broadcasts `Log`, `Close` and
`Reload` over it.  The embedding below follows the source function by
function.

Modelling conventions.

* A Go `map[string]T` is an association list with pairwise distinct keys
  (`AList`).  `range` visits the entries in list order; Go leaves the order
  unspecified, and every statement below is proved for every list, hence for
  every order.
* A sink instance (`logger.Logger`) is a handle.  What a sink, a constructor or
  the registry answers is given by the environment `Env`, as a function of the
  calls made so far, so that sinks may be stateful.
* Every call into an external collaborator is appended to a trace, together
  with the value it returned.
* Strings are split on a single separator character; `","` and `":"` are the
  only separators the source uses.
* Maps are allocated: every `Info` stored by `newTeeLogger` holds the map that
  `driverConfig` made, so the writes of `Reload` into it do not panic.
* Calls to the process logger `log` are not modelled.
* A `logger.Message` is a struct whose `Line` is a byte slice.  Copying the
  struct copies the slice header, not the bytes, so a sink can write into the
  bytes every other copy sees; the content of these bytes is threaded through
  `Log`.
* Whether a sink can be read back (`logger.LogReader`) is a fixed property of
  the instance; the watcher it returns is a handle.
-/

namespace TeeLogger

/-- A Go `map[string]β`: association list without duplicate keys. -/
abbrev GoMap (β : Type) := AList (fun _ : String => β)

/-- Go `error` values: the package-level `errNoSuchDrivers` and errors produced
by external collaborators, identified by their `Error()` text. -/
inductive GoError where
  | errNoSuchDrivers
  | other (text : String)
deriving DecidableEq, Repr

/-- Go `logger.Info`: the configuration map and the container metadata handed to a
sink constructor. -/
structure Info where
  Config : GoMap String
  ContainerID : String
  ContainerName : String
deriving DecidableEq

/-- Go `logger.Logger`: handle of a sink instance. -/
abbrev Logger := Nat

/-- Go `logger.Message`, the record handed to `Log`. -/
structure Message where
  Line : String
  Source : String
  Timestamp : Nat
deriving DecidableEq, Repr

/-- Go `type subLogger struct { logger logger.Logger; info logger.Info }`. -/
structure subLogger where
  logger : Logger
  info : Info
deriving DecidableEq

/-- Go `type teeLogger struct { loggers map[string]subLogger }`. -/
structure teeLogger where
  loggers : GoMap subLogger
deriving DecidableEq

/-- Go `type multipleError struct { message string; errs []error }`. -/
structure multipleError where
  message : String
  errs : List GoError
deriving DecidableEq, Repr

/-- Go `func newMultipleError(message string, errors []error) *multipleError`. -/
def newMultipleError (message : String) (errors : List GoError) : multipleError :=
  ⟨message, errors⟩

/-- Go `logger.ReadConfig`, as far as a caller fills it: how many lines to read
back and whether to follow. -/
structure ReadConfig where
  Tail : Int
  Follow : Bool
deriving DecidableEq, Repr

/-- Go `*logger.LogWatcher`: handle of a watcher. -/
abbrev LogWatcher := Nat

/-- Calls into external collaborators, each with the value it returned.  A
`Log` call also records the bytes of `Line` as the sink left them. -/
inductive Event where
  | GetLogDriver (name : String) (err : Option GoError)
  | Create (name : String) (info : Info) (res : Except GoError Logger)
  | Log (lg : Logger) (m : Message) (err : Option GoError) (line : String)
  | Close (lg : Logger) (err : Option GoError)
  | NewMessage
  | PutMessage (m : Message)
  | ReadLogs (lg : Logger) (readConfig : ReadConfig) (w : LogWatcher)
  | NewLogWatcher (w : LogWatcher)

/-- The calls made so far, oldest first. -/
abbrev Trace := List Event

/-- Go `logger.Creator`, that is `func(Info) (Logger, error)`; the answer may depend on the
calls made before. -/
abbrev Creator := Trace → Info → Except GoError Logger

/-- Go `os.FileInfo`, as far as `fileExists` reads it. -/
structure FileInfo where
  IsDir : Bool
deriving DecidableEq, Repr

/-- Result of `os.Stat`: the file information, or an error, which
`os.IsNotExist` classifies. -/
inductive StatResult where
  | found (info : FileInfo)
  | failed (isNotExist : Bool)
deriving DecidableEq, Repr

/-- Result of a Go function returning `(T, error)` that may also stop in a
run-time panic. -/
inductive Outcome (α : Type) where
  | ok (a : α)
  | fail (e : GoError)
  | crash
deriving DecidableEq, Repr

/-- The external collaborators: process environment, file system, JSON
decoder, sink registry and sink instances.  A sink's `Log` answers with an
error or nil (`sinkLog`) and may write into the bytes of `Line` it was handed:
`sinkLogLine` is their content when the call returns, the received `Line` for a
sink that does not write. -/
structure Env where
  LookupEnv : String → Option String
  Stat : String → StatResult
  ReadFile : String → Except GoError String
  Unmarshal : String → Except GoError (GoMap (GoMap String))
  GetLogDriver : Trace → String → Except GoError Creator
  sinkLog : Trace → Logger → Message → Option GoError
  sinkLogLine : Trace → Logger → Message → String
  sinkClose : Trace → Logger → Option GoError
  isLogReader : Logger → Bool
  sinkReadLogs : Trace → Logger → ReadConfig → LogWatcher
  NewLogWatcher : Trace → LogWatcher

/-- Pieces of `cs` between occurrences of `sep`, as `strings.Split` cuts them:
always at least one piece, none containing `sep`. -/
def splitChars (sep : Char) : List Char → List (List Char)
  | [] => [[]]
  | c :: cs =>
    if c = sep then [] :: splitChars sep cs
    else
      match splitChars sep cs with
      | [] => [[c]]
      | p :: ps => (c :: p) :: ps

/-- Go `strings.Split(s, sep)` for a one-character separator. -/
def Split (s : String) (sep : Char) : List String :=
  (splitChars sep s.data).map String.mk

/-- Cut `cs` at the first occurrence of `sep`. -/
def cutChars (sep : Char) : List Char → Option (List Char × List Char)
  | [] => none
  | c :: cs =>
    if c = sep then some ([], cs)
    else (cutChars sep cs).map (fun p => (c :: p.1, p.2))

/-- Go `strings.SplitN(s, sep, 2)` for a one-character separator: the text before
and after the first separator, or `s` alone when there is none. -/
def SplitN2 (s : String) (sep : Char) : List String :=
  match cutChars sep s.data with
  | none => [s]
  | some (a, b) => [String.mk a, String.mk b]

/-- Function `driverNames`: the inline key `tee-drivers` first, then the environment
variable `TEE-DRIVERS`, else `errNoSuchDrivers`. -/
def driverNames (env : Env) (config : GoMap String) : Except GoError (List String) :=
  match config.lookup "tee-drivers" with
  | some s => .ok (Split s ',')
  | none =>
    match env.LookupEnv "TEE-DRIVERS" with
    | some s => .ok (Split s ',')
    | none => .error GoError.errNoSuchDrivers

/-- Function `fileExists`: `none` stands for the nil dereference in `info.IsDir()` when
`os.Stat` failed with an error other than not-exist. -/
def fileExists (env : Env) (filename : String) : Option Bool :=
  match env.Stat filename with
  | .failed true => some false
  | .failed false => none
  | .found info => some (!info.IsDir)

/-- One step of the first loop of `driverConfig`: keep the entry when its key
splits into exactly two parts and the first is the driver name. -/
def namespacedStep (driverName : String) (newConfig : GoMap String)
    (kv : (_ : String) × String) : GoMap String :=
  match SplitN2 kv.1 ':' with
  | [k0, k1] => if k0 ≠ driverName then newConfig else newConfig.insert k1 kv.2
  | _ => newConfig

/-- First loop of `driverConfig` (lines 130-137): the inline keys
`<driverName>:<key>`, stripped of the driver name. -/
def namespacedConfig (driverName : String) (config : GoMap String) : GoMap String :=
  config.entries.foldl (namespacedStep driverName) ∅

/-- The loop `for k, v := range val { newConfig[k] = v }` of `driverConfig`. -/
def overrideConfig (newConfig val : GoMap String) : GoMap String :=
  val.entries.foldl (fun acc kv => acc.insert kv.1 kv.2) newConfig

/-- Function `driverConfig`: inline namespaced keys, overridden by the entry of
`/etc/docker/tee.json` for the driver when that file exists. -/
def driverConfig (env : Env) (driverName : String) (config : GoMap String) :
    Outcome (GoMap String) :=
  let newConfig := namespacedConfig driverName config
  match fileExists env "/etc/docker/tee.json" with
  | none => .crash
  | some false => .ok newConfig
  | some true =>
    match env.ReadFile "/etc/docker/tee.json" with
    | .error err => .fail err
    | .ok content =>
      match env.Unmarshal content with
      | .error err => .fail err
      | .ok fileConfig =>
        match fileConfig.lookup driverName with
        | some val => .ok (overrideConfig newConfig val)
        | none => .ok newConfig

/-- The closure `closeLoggers` of `newTeeLogger`: `Close` on every value held
in the map, results ignored. -/
def closeLoggers (env : Env) : List ((_ : String) × subLogger) → Trace → Trace
  | [], tr => tr
  | l :: rest, tr =>
    closeLoggers env rest (tr ++ [Event.Close l.2.logger (env.sinkClose tr l.2.logger)])

/-- The loop of `newTeeLogger` over the resolved names. -/
def newTeeLoggerLoop (env : Env) (info : Info) :
    List String → GoMap subLogger → Trace → Outcome teeLogger × Trace
  | [], loggers, tr => (.ok ⟨loggers⟩, tr)
  | name :: names, loggers, tr =>
    match env.GetLogDriver tr name with
    | .error err =>
      (.fail err, closeLoggers env loggers.entries (tr ++ [Event.GetLogDriver name (some err)]))
    | .ok creator =>
      let tr1 := tr ++ [Event.GetLogDriver name none]
      match driverConfig env name info.Config with
      | .crash => (.crash, tr1)
      | .fail err => (.fail err, closeLoggers env loggers.entries tr1)
      | .ok newConfig =>
        let newInfo := { info with Config := newConfig }
        let res := creator tr1 newInfo
        let tr2 := tr1 ++ [Event.Create name newInfo res]
        match res with
        | .error err => (.fail err, closeLoggers env loggers.entries tr2)
        | .ok l => newTeeLoggerLoop env info names (loggers.insert name ⟨l, newInfo⟩) tr2

/-- Function `newTeeLogger`: resolve the names, then construct one sink per name. -/
def newTeeLogger (env : Env) (info : Info) (tr : Trace) : Outcome teeLogger × Trace :=
  match driverNames env info.Config with
  | .error err => (.fail err, tr)
  | .ok names => newTeeLoggerLoop env info names ∅ tr

/-- The inner loop of `Reload` (lines 52-57).  `info.Config` is a Go map, a
reference shared with the entry stored in `l.loggers`, so the writes land in the
stored configuration. -/
def reloadConfig (driverConf stored : GoMap String) : GoMap String × Bool :=
  driverConf.entries.foldl
    (fun (acc : GoMap String × Bool) kv =>
      if kv.2 ≠ (acc.1.lookup kv.1).getD "" then (acc.1.insert kv.1 kv.2, true) else acc)
    (stored, false)

/-- Body of the outer loop of `Reload` for one entry.  Returns the error that
ends `Reload` (if any), the value held under `name` in `l.loggers` afterwards,
and the trace.  The loop variable `l` is a copy of the map value: the
assignment `l.logger = newLogger` changes the copy only, whereas the writes to
`info.Config` go through the shared map reference. -/
def reloadEntry (env : Env) (config : GoMap (GoMap String)) (name : String) (l : subLogger)
    (tr : Trace) : Option GoError × subLogger × Trace :=
  match config.lookup name with
  | none => (none, l, tr)
  | some driverConf =>
    let (newConf, configurationChanged) := reloadConfig driverConf l.info.Config
    let info := { l.info with Config := newConf }
    let stored : subLogger := { l with info := info }
    if configurationChanged then
      match env.GetLogDriver tr name with
      | .error err => (some err, stored, tr ++ [Event.GetLogDriver name (some err)])
      | .ok creator =>
        let tr1 := tr ++ [Event.GetLogDriver name none]
        let res := creator tr1 info
        let tr2 := tr1 ++ [Event.Create name info res]
        match res with
        | .error err => (some err, stored, tr2)
        | .ok newLogger =>
          let _loopCopy : subLogger := { stored with logger := newLogger }
          (none, stored, tr2)
    else (none, stored, tr)

/-- The outer loop of `Reload` over a snapshot of the entries; `loggers` is the
map as it stands. -/
def ReloadLoop (env : Env) (config : GoMap (GoMap String)) :
    List ((_ : String) × subLogger) → GoMap subLogger → Trace →
      Option GoError × GoMap subLogger × Trace
  | [], loggers, tr => (none, loggers, tr)
  | e :: rest, loggers, tr =>
    match reloadEntry env config e.1 e.2 tr with
    | (some err, stored, tr1) => (some err, loggers.replace e.1 stored, tr1)
    | (none, stored, tr1) => ReloadLoop env config rest (loggers.replace e.1 stored) tr1

/-- Method `(*teeLogger).Reload`. -/
def teeLogger.Reload (env : Env) (l : teeLogger) (config : GoMap (GoMap String)) (tr : Trace) :
    Option GoError × teeLogger × Trace :=
  let r := ReloadLoop env config l.loggers.entries l.loggers tr
  (r.1, ⟨r.2.1⟩, r.2.2)

/-- The loop of `Log`.  The copy `m := *msg` is a copy of the struct: its fields
are those of `msg`, and its `Line` is a slice over the same bytes as `msg.Line`
and as every other copy.  `line` is the content of those bytes when the entry is
visited; the sink receives it and may leave another content behind.  Errors are
appended to `errs`, and `logger.NewMessage()` is called after each sink.
Returns the errors, the content of the bytes at the end and the trace. -/
def LogLoop (env : Env) (msg : Message) :
    List ((_ : String) × subLogger) → String → List GoError → Trace →
      List GoError × String × Trace
  | [], line, errs, tr => (errs, line, tr)
  | lg :: rest, line, errs, tr =>
    let m : Message := { msg with Line := line }
    let res := env.sinkLog tr lg.2.logger m
    let line1 := env.sinkLogLine tr lg.2.logger m
    let tr1 := tr ++ [Event.Log lg.2.logger m res line1]
    let errs1 := match res with
      | some err => errs ++ [err]
      | none => errs
    LogLoop env msg rest line1 errs1 (tr1 ++ [Event.NewMessage])

/-- Method `(*teeLogger).Log`. -/
def teeLogger.Log (env : Env) (l : teeLogger) (msg : Message) (tr : Trace) :
    Option multipleError × Trace :=
  let r := LogLoop env msg l.loggers.entries msg.Line [] tr
  let tr1 := r.2.2 ++ [Event.PutMessage { msg with Line := r.2.1 }]
  if r.1.length ≠ 0 then (some (newMultipleError "faild to log on some loggers" r.1), tr1)
  else (none, tr1)

/-- The loop of `Close`. -/
def CloseLoop (env : Env) :
    List ((_ : String) × subLogger) → List GoError → Trace → List GoError × Trace
  | [], errs, tr => (errs, tr)
  | lg :: rest, errs, tr =>
    let res := env.sinkClose tr lg.2.logger
    let errs1 := match res with
      | some err => errs ++ [err]
      | none => errs
    CloseLoop env rest errs1 (tr ++ [Event.Close lg.2.logger res])

/-- Method `(*teeLogger).Close`. -/
def teeLogger.Close (env : Env) (l : teeLogger) (tr : Trace) : Option multipleError × Trace :=
  let r := CloseLoop env l.loggers.entries [] tr
  if r.1.length ≠ 0 then (some (newMultipleError "faild to close on some loggers" r.1), r.2)
  else (none, r.2)

/-- The `Log` calls recorded in a trace: sink, message received, answer. -/
def logCalls : Trace → List (Logger × Message × Option GoError)
  | [] => []
  | Event.Log lg m r _ :: t => (lg, m, r) :: logCalls t
  | _ :: t => logCalls t

/-- For each `Log` call recorded in a trace, the message the sink received and
the bytes of `Line` as the sink left them. -/
def logLines : Trace → List (Message × String)
  | [] => []
  | Event.Log _ m _ line :: t => (m, line) :: logLines t
  | _ :: t => logLines t

/-- Each sink in turn received the record `msg` with, as `Line`, the shared
bytes as the sink before it left them; `line` is their content before the first
call. -/
def Chained (msg : Message) : String → List (Message × String) → Prop
  | _, [] => True
  | line, c :: rest => c.1 = { msg with Line := line } ∧ Chained msg c.2 rest

/-- The `Close` calls recorded in a trace: sink and answer. -/
def closeCalls : Trace → List (Logger × Option GoError)
  | [] => []
  | Event.Close lg r :: t => (lg, r) :: closeCalls t
  | _ :: t => closeCalls t

/-- The constructor calls recorded in a trace: driver name, `Info` passed,
answer. -/
def createCalls : Trace → List (String × Info × Except GoError Logger)
  | [] => []
  | Event.Create n i r :: t => (n, i, r) :: createCalls t
  | _ :: t => createCalls t

/-- The registry lookups recorded in a trace. -/
def lookupCalls : Trace → List String
  | [] => []
  | Event.GetLogDriver n _ :: t => n :: lookupCalls t
  | _ :: t => lookupCalls t

/-- The sink instances a trace has constructed. -/
def createdLoggers (tr : Trace) : List Logger :=
  (createCalls tr).filterMap fun c =>
    match c.2.2 with
    | .ok l => some l
    | .error _ => none

/-- Every sink call recorded in `evs` carries the answer the environment gives
after the calls made before it, `tr` being the calls made before `evs`. -/
def Answered (env : Env) : Trace → Trace → Prop
  | _, [] => True
  | tr, ev :: evs =>
    (match ev with
      | Event.Log lg m r line => r = env.sinkLog tr lg m ∧ line = env.sinkLogLine tr lg m
      | Event.Close lg r => r = env.sinkClose tr lg
      | _ => True) ∧ Answered env (tr ++ [ev]) evs

/-- Method `Error()` of a Go `error` value. -/
def GoError.Error : GoError → String
  | .errNoSuchDrivers => "no such drivers"
  | .other text => text

/-- Method `(*multipleError).Error`: the message, then `"; "` and the text of
each cause, written to the buffer in list order. -/
def multipleError.Error (e : multipleError) : String :=
  e.errs.foldl (fun buf err => buf ++ ("; " ++ err.Error)) e.message

/-- Go `strings.Join(elems, sep)` for a one-character separator. -/
def Join (elems : List String) (sep : Char) : String :=
  String.mk ([sep].intercalate (elems.map String.data))

/-- The loop of `ReadLogs`: the first entry whose sink is a `logger.LogReader`
answers; without one, `logger.NewLogWatcher()` does. -/
def ReadLogsLoop (env : Env) (readConfig : ReadConfig) :
    List ((_ : String) × subLogger) → Trace → LogWatcher × Trace
  | [], tr => (env.NewLogWatcher tr, tr ++ [Event.NewLogWatcher (env.NewLogWatcher tr)])
  | lg :: rest, tr =>
    if env.isLogReader lg.2.logger then
      (env.sinkReadLogs tr lg.2.logger readConfig,
        tr ++ [Event.ReadLogs lg.2.logger readConfig (env.sinkReadLogs tr lg.2.logger readConfig)])
    else ReadLogsLoop env readConfig rest tr

/-- Method `(*teeLogger).ReadLogs`. -/
def teeLogger.ReadLogs (env : Env) (l : teeLogger) (readConfig : ReadConfig) (tr : Trace) :
    LogWatcher × Trace :=
  ReadLogsLoop env readConfig l.loggers.entries tr

/-- The `ReadLogs` calls recorded in a trace: sink, read configuration, answer. -/
def readCalls : Trace → List (Logger × ReadConfig × LogWatcher)
  | [] => []
  | Event.ReadLogs lg c w :: t => (lg, c, w) :: readCalls t
  | _ :: t => readCalls t

/-- The operations a caller can invoke on a constructed `teeLogger`. -/
inductive Op where
  | Reload (config : GoMap (GoMap String))
  | Log (msg : Message)
  | Close
  | ReadLogs (readConfig : ReadConfig)

/-- One operation on a `teeLogger`: the logger afterwards and the trace.  Only
`Reload` writes to the logger; `Log`, `Close` and `ReadLogs` read `l.loggers`
and assign nothing. -/
def teeLogger.step (env : Env) (l : teeLogger) (op : Op) (tr : Trace) : teeLogger × Trace :=
  match op with
  | .Reload config => (l.Reload env config tr).2
  | .Log msg => (l, (l.Log env msg tr).2)
  | .Close => (l, (l.Close env tr).2)
  | .ReadLogs readConfig => (l, (l.ReadLogs env readConfig tr).2)

/-- A sequence of operations, one after the other. -/
def teeLogger.run (env : Env) : teeLogger → List Op → Trace → teeLogger × Trace
  | l, [], tr => (l, tr)
  | l, op :: ops, tr => teeLogger.run env (l.step env op tr).1 ops (l.step env op tr).2

/-- The failed registry lookup or constructor call an event records, if any:
driver name and error. -/
def Event.failure : Event → Option (String × GoError)
  | .GetLogDriver n (some err) => some (n, err)
  | .Create n _ (.error err) => some (n, err)
  | _ => none

/-- Whether the inner loop of `Reload` finds a change: some key of the supplied
configuration carries a value other than the one a Go lookup in the stored
configuration yields, the empty string when the key is not stored. -/
def changedBy (driverConf stored : GoMap String) : Bool :=
  driverConf.entries.any fun kv => decide (kv.2 ≠ (stored.lookup kv.1).getD "")

/-- Whether `Reload` with `config` finds a change for the entry `e`. -/
def needsReload (config : GoMap (GoMap String)) (e : (_ : String) × subLogger) : Bool :=
  match config.lookup e.1 with
  | none => false
  | some driverConf => changedBy driverConf e.2.info.Config

/-- The value held for an entry once `Reload` with `config` has visited it: the
same instance, the stored configuration overlaid with the supplied one. -/
def mergedEntry (config : GoMap (GoMap String)) (name : String) (l : subLogger) : subLogger :=
  match config.lookup name with
  | none => l
  | some driverConf =>
    { l with info := { l.info with Config := (reloadConfig driverConf l.info.Config).1 } }

/-- The reload configuration `config` differs from the stored state of `l` in
exactly the key `k` of the sink `s`: the two configurations of `s` disagree on
`k` and on no other key, and every other active sink is given exactly its
stored configuration. -/
def DiffersInOneKey (l : teeLogger) (config : GoMap (GoMap String)) (s k : String) : Prop :=
  (∃ sub c, l.loggers.lookup s = some sub ∧ config.lookup s = some c ∧
    c.lookup k ≠ sub.info.Config.lookup k ∧
    ∀ k1, k1 ≠ k → c.lookup k1 = sub.info.Config.lookup k1) ∧
  ∀ t sub1, t ≠ s → l.loggers.lookup t = some sub1 →
    ∃ c1, config.lookup t = some c1 ∧ ∀ k1, c1.lookup k1 = sub1.info.Config.lookup k1

/-- An environment for the examples: the registry knows the drivers in `known`,
a constructor hands out the number of calls made so far as a fresh handle, the
variable `TEE-DRIVERS` is unset, `/etc/docker/tee.json` does not exist and no
sink ever fails or writes into the record.  The sinks with an even handle can be read back; sink `lg`
answers `ReadLogs` with the watcher `100 + lg`, and the fresh empty watcher is
0. -/
def exampleEnv (known : List String) : Env where
  LookupEnv := fun _ => none
  Stat := fun _ => .failed true
  ReadFile := fun _ => .error (.other "open /etc/docker/tee.json: no such file or directory")
  Unmarshal := fun _ => .error (.other "unexpected end of JSON input")
  GetLogDriver := fun _ name =>
    if name ∈ known then .ok (fun tr _ => .ok tr.length)
    else .error (.other "logger: no log driver named")
  sinkLog := fun _ _ _ => none
  sinkLogLine := fun _ _ m => m.Line
  sinkClose := fun _ _ => none
  isLogReader := fun lg => lg % 2 == 0
  sinkReadLogs := fun _ lg _ => 100 + lg
  NewLogWatcher := fun _ => 0

/-- The example environment with a sink, instance 7, that overwrites the first
byte of the `Line` it is handed with `X`. -/
def writingEnv : Env :=
  { exampleEnv [] with
    sinkLogLine := fun _ lg m => if lg = 7 then String.mk ('X' :: m.Line.data.drop 1) else m.Line }

/-- The example environment with a regular file `/etc/docker/tee.json` whose
JSON content decodes to `fileConfig`. -/
def exampleFileEnv (known : List String) (fileConfig : GoMap (GoMap String)) : Env :=
  { exampleEnv known with
    Stat := fun _ => .found ⟨false⟩
    ReadFile := fun _ => .ok "tee.json"
    Unmarshal := fun _ => .ok fileConfig }

/-- A logger with two sinks: `a`, instance 7, stored configuration
`level = info`, and `b`, instance 8, empty stored configuration. -/
def exampleLogger : teeLogger :=
  ⟨AList.insert "a" ⟨7, ⟨AList.singleton "level" "info", "c0ffee", "web"⟩⟩
    (AList.singleton "b" ⟨8, ⟨∅, "c0ffee", "web"⟩⟩)⟩

/-- Reload configuration equal to what `exampleLogger` stores: `level = info`
for `a`, nothing for `b`. -/
def identicalConfig : GoMap (GoMap String) :=
  AList.insert "a" (AList.singleton "level" "info") (AList.singleton "b" ∅)

/-- Reload configuration: `level = debug` for `a`, nothing for `b`. -/
def changedConfig : GoMap (GoMap String) :=
  AList.insert "a" (AList.singleton "level" "debug") (AList.singleton "b" ∅)

/-- Reload configuration: no key for `a`, none for `b`. -/
def removedConfig : GoMap (GoMap String) :=
  AList.insert "a" ∅ (AList.singleton "b" ∅)

/-- Reload configuration: for `a` the stored `level = info` and a new key `tag`
with the empty value, nothing for `b`. -/
def emptyValueConfig : GoMap (GoMap String) :=
  AList.insert "a" (AList.insert "tag" "" (AList.singleton "level" "info")) (AList.singleton "b" ∅)

/-- The base configuration of the example: `tee-drivers` is `a,b` and
`a:level` is `info`. -/
def exampleConfig : GoMap String :=
  AList.insert "tee-drivers" "a,b" (AList.singleton "a:level" "info")

/-- The base configuration of the example with one more inline key for `a`:
`a:tag` is `x`. -/
def taggedConfig : GoMap String :=
  AList.insert "a:tag" "x" exampleConfig

/-- A base configuration with the single driver `a` and `a:level = info`. -/
def singleConfig : GoMap String :=
  AList.insert "tee-drivers" "a" (AList.singleton "a:level" "info")

/-- The example environment with the single driver `a`, whose constructor
rejects a configuration without the key `level`. -/
def pickyEnv : Env :=
  { exampleEnv [] with
    GetLogDriver := fun _ name =>
      if name = "a" then
        .ok (fun tr info =>
          if (info.Config.lookup "level").isSome then .ok tr.length
          else .error (.other "missing level"))
      else .error (.other "logger: no log driver named") }

/-- A base configuration naming the driver `a` twice: `tee-drivers = a,a,b`. -/
def repeatedConfig : GoMap String :=
  AList.singleton "tee-drivers" "a,a,b"

/-! ## String splitting -/

theorem cutChars_some {sep : Char} :
    ∀ {cs a b : List Char}, cutChars sep cs = some (a, b) → cs = a ++ sep :: b ∧ sep ∉ a
  | [], a, b, h => by simp [cutChars] at h
  | c :: cs, a, b, h => by
    by_cases hc : c = sep
    · simp [cutChars, hc] at h
      obtain ⟨rfl, rfl⟩ := h
      simp [hc]
    · simp only [cutChars, if_neg hc, Option.map_eq_some'] at h
      obtain ⟨⟨a1, b1⟩, hp, heq⟩ := h
      simp only [Prod.mk.injEq] at heq
      obtain ⟨rfl, rfl⟩ := heq
      obtain ⟨h1, h2⟩ := cutChars_some hp
      refine ⟨by simp [h1], ?_⟩
      simp only [List.mem_cons, not_or]
      exact ⟨fun h => hc h.symm, h2⟩

theorem cutChars_append {sep : Char} :
    ∀ (a b : List Char), sep ∉ a → cutChars sep (a ++ sep :: b) = some (a, b)
  | [], b, _ => by simp [cutChars]
  | c :: a, b, h => by
    simp only [List.mem_cons, not_or] at h
    have hc : ¬ c = sep := fun e => h.1 e.symm
    simp [cutChars, hc, cutChars_append a b h.2]

theorem SplitN2_namespaced (s k : String) (hs : ':' ∉ s.data) :
    SplitN2 (s ++ ":" ++ k) ':' = [s, k] := by
  have hd : (s ++ ":" ++ k).data = s.data ++ ':' :: k.data := by
    simp [String.data_append]
  simp [SplitN2, hd, cutChars_append _ _ hs]

theorem SplitN2_pair {K k0 k1 : String} (h : SplitN2 K ':' = [k0, k1]) :
    K = k0 ++ ":" ++ k1 := by
  unfold SplitN2 at h
  split at h
  · simp at h
  · rename_i a b hcut
    simp only [List.cons.injEq, and_true] at h
    obtain ⟨rfl, rfl⟩ := h
    obtain ⟨h1, _⟩ := cutChars_some hcut
    apply String.ext
    simp [String.data_append, h1]

/-! ## `driverConfig` -/

theorem namespacedStep_hit (s k v : String) (hs : ':' ∉ s.data) (acc : GoMap String) :
    namespacedStep s acc ⟨s ++ ":" ++ k, v⟩ = acc.insert k v := by
  simp [namespacedStep, SplitN2_namespaced s k hs]

theorem namespacedStep_cases (s : String) (acc : GoMap String) (kv : (_ : String) × String) :
    namespacedStep s acc kv = acc ∨
      ∃ k1, kv.1 = s ++ ":" ++ k1 ∧ namespacedStep s acc kv = acc.insert k1 kv.2 := by
  unfold namespacedStep
  split
  · rename_i k0 k1 hsplit
    by_cases h0 : k0 = s
    · right
      refine ⟨k1, ?_, by simp [h0]⟩
      rw [SplitN2_pair hsplit, h0]
    · left
      simp [h0]
  · left
    rfl

theorem append_colon_injective (s k k1 : String) (h : s ++ ":" ++ k = s ++ ":" ++ k1) :
    k = k1 := by
  have h1 := congrArg String.data h
  simp only [String.data_append, List.append_assoc, List.append_cancel_left_eq] at h1
  exact String.ext h1

theorem lookup_foldl_namespacedStep (s k : String) (hs : ':' ∉ s.data) :
    ∀ (es : List ((_ : String) × String)) (acc : GoMap String), es.NodupKeys →
      (es.foldl (namespacedStep s) acc).lookup k =
        match es.dlookup (s ++ ":" ++ k) with
        | some v => some v
        | none => acc.lookup k
  | [], acc, _ => by simp
  | ⟨K, V⟩ :: es, acc, nd => by
    rw [List.nodupKeys_cons] at nd
    rw [List.foldl_cons, lookup_foldl_namespacedStep s k hs es _ nd.2]
    by_cases hK : K = s ++ ":" ++ k
    · subst hK
      have hnone : es.dlookup (s ++ ":" ++ k) = none := List.dlookup_eq_none.2 nd.1
      rw [List.dlookup_cons_eq, hnone, namespacedStep_hit s k V hs]
      simp
    · have hne : s ++ ":" ++ k ≠ (⟨K, V⟩ : (_ : String) × String).1 := fun e => hK e.symm
      rw [List.dlookup_cons_ne _ _ hne]
      have hacc : (namespacedStep s acc ⟨K, V⟩).lookup k = acc.lookup k := by
        rcases namespacedStep_cases s acc ⟨K, V⟩ with h | ⟨k1, hk1, h⟩
        · rw [h]
        · rw [h]
          have : k ≠ k1 := by
            rintro rfl
            exact hK hk1
          exact AList.lookup_insert_ne this
      rw [hacc]

theorem lookup_namespacedConfig (s k : String) (hs : ':' ∉ s.data) (config : GoMap String) :
    (namespacedConfig s config).lookup k = config.lookup (s ++ ":" ++ k) := by
  unfold namespacedConfig
  rw [lookup_foldl_namespacedStep s k hs _ _ config.nodupKeys]
  show _ = List.dlookup _ config.entries
  cases List.dlookup (s ++ ":" ++ k) config.entries <;> simp

theorem lookup_foldl_insert (k : String) :
    ∀ (es : List ((_ : String) × String)) (acc : GoMap String), es.NodupKeys →
      (es.foldl (fun acc kv => acc.insert kv.1 kv.2) acc).lookup k =
        match es.dlookup k with
        | some v => some v
        | none => acc.lookup k
  | [], acc, _ => by simp
  | ⟨K, V⟩ :: es, acc, nd => by
    rw [List.nodupKeys_cons] at nd
    rw [List.foldl_cons, lookup_foldl_insert k es _ nd.2]
    by_cases hK : K = k
    · subst hK
      have hnone : es.dlookup K = none := List.dlookup_eq_none.2 nd.1
      rw [List.dlookup_cons_eq, hnone]
      simp
    · have hne : k ≠ (⟨K, V⟩ : (_ : String) × String).1 := fun e => hK e.symm
      rw [List.dlookup_cons_ne _ _ hne, AList.lookup_insert_ne hne]

theorem lookup_overrideConfig (base val : GoMap String) (k : String) :
    (overrideConfig base val).lookup k =
      match val.lookup k with
      | some v => some v
      | none => base.lookup k :=
  lookup_foldl_insert k val.entries base val.nodupKeys

theorem driverConfig_no_file (env : Env) (s : String) (config : GoMap String)
    (hfile : fileExists env "/etc/docker/tee.json" = some false) :
    driverConfig env s config = .ok (namespacedConfig s config) := by
  simp [driverConfig, hfile]

/-- C4, amended: for a sink name `s` without a colon, when the file is absent
`driverConfig` succeeds and its result maps `k` to `v` exactly when the base
configuration maps `s:k` to `v`. -/
theorem driverConfig_namespaced (env : Env) (s : String) (config : GoMap String)
    (hs : ':' ∉ s.data) (hfile : fileExists env "/etc/docker/tee.json" = some false) :
    ∃ r, driverConfig env s config = .ok r ∧
      ∀ k v, r.lookup k = some v ↔ config.lookup (s ++ ":" ++ k) = some v := by
  refine ⟨_, driverConfig_no_file env s config hfile, ?_⟩
  intro k v
  rw [lookup_namespacedConfig s k hs]

/-- The example of C4: sink `a` receives `level = info` and nothing else, sink `b`
receives nothing. -/
theorem driverConfig_namespaced_witness :
    (∃ r, driverConfig (exampleEnv []) "a" exampleConfig = .ok r ∧
      ∀ k v, r.lookup k = some v ↔ exampleConfig.lookup ("a" ++ ":" ++ k) = some v) ∧
    driverConfig (exampleEnv []) "a" exampleConfig = .ok (AList.singleton "level" "info") ∧
    driverConfig (exampleEnv []) "b" exampleConfig = .ok ∅ :=
  ⟨driverConfig_namespaced (exampleEnv []) "a" exampleConfig (by decide) rfl, rfl, rfl⟩

/-- C4 as stated fails for a sink name containing a colon: for the sink `a:b`
the key `a:b:k` is cut at its first colon, so the result has no key `k`. -/
theorem colon_name_not_namespaced :
    ¬ ∀ (env : Env) (s : String) (config : GoMap String) (k v : String),
      fileExists env "/etc/docker/tee.json" = some false →
        ∃ r, driverConfig env s config = .ok r ∧
          (r.lookup k = some v ↔ config.lookup (s ++ ":" ++ k) = some v) := by
  intro h
  obtain ⟨r, hr, hiff⟩ :=
    h (exampleEnv []) "a:b" (AList.singleton "a:b:k" "v") "k" "v" rfl
  have hr2 : driverConfig (exampleEnv []) "a:b" (AList.singleton "a:b:k" "v") = .ok ∅ := rfl
  rw [hr2] at hr
  cases hr
  have : (∅ : GoMap String).lookup "k" = some "v" := hiff.2 (by decide)
  simp at this

/-- C5, amended: with a well-formed file `driverConfig` succeeds and every key
the file defines for the sink has the file's value in the result, also when an
inline key says otherwise.  For a sink name `s` without a colon, every key the
file does not define for `s` has the value of the inline key `s:k` of the base
configuration, if any, and when the file has no entry for `s` the result holds
exactly the inline keys `s:k`, as without a file. -/
theorem driverConfig_file_wins (env : Env) (s : String) (config : GoMap String)
    (content : String) (fileConfig : GoMap (GoMap String))
    (hfile : fileExists env "/etc/docker/tee.json" = some true)
    (hread : env.ReadFile "/etc/docker/tee.json" = .ok content)
    (hjson : env.Unmarshal content = .ok fileConfig) :
    ∃ r, driverConfig env s config = .ok r ∧
      (∀ val, fileConfig.lookup s = some val →
        ∀ k v, val.lookup k = some v → r.lookup k = some v) ∧
      (fileConfig.lookup s = none →
        ∀ env0, fileExists env0 "/etc/docker/tee.json" = some false →
          driverConfig env0 s config = .ok r) ∧
      (':' ∉ s.data →
        (∀ val, fileConfig.lookup s = some val →
          ∀ k, val.lookup k = none → r.lookup k = config.lookup (s ++ ":" ++ k)) ∧
        (fileConfig.lookup s = none → ∀ k, r.lookup k = config.lookup (s ++ ":" ++ k))) := by
  cases hval : fileConfig.lookup s with
  | none =>
    refine ⟨namespacedConfig s config, ?_, ?_, ?_, ?_⟩
    · simp [driverConfig, hfile, hread, hjson, hval]
    · intro val h
      cases h
    · exact fun _ env0 h0 => driverConfig_no_file env0 s config h0
    · intro hs
      refine ⟨?_, fun _ k => lookup_namespacedConfig s k hs config⟩
      intro val h
      cases h
  | some val =>
    refine ⟨overrideConfig (namespacedConfig s config) val, ?_, ?_, (fun h => by cases h), ?_⟩
    · simp [driverConfig, hfile, hread, hjson, hval]
    · intro val1 h k v hv
      cases h
      rw [lookup_overrideConfig, hv]
    · intro hs
      refine ⟨?_, (fun h => by cases h)⟩
      intro val1 h k hn
      cases h
      rw [lookup_overrideConfig, hn]
      exact lookup_namespacedConfig s k hs config

/-- Example for C5: the file sets `level = debug` for sink `a`; inline, `a:level`
says `info` and `a:tag` says `x`.  The result has the file's `level` and keeps
the inline `tag`. -/
theorem driverConfig_file_wins_witness :
    (∃ r,
      driverConfig (exampleFileEnv [] (AList.singleton "a" (AList.singleton "level" "debug")))
        "a" taggedConfig = .ok r ∧
      (∀ val, (AList.singleton "a" (AList.singleton "level" "debug") :
          GoMap (GoMap String)).lookup "a" = some val →
        ∀ k v, val.lookup k = some v → r.lookup k = some v) ∧
      ((AList.singleton "a" (AList.singleton "level" "debug") :
          GoMap (GoMap String)).lookup "a" = none →
        ∀ env0, fileExists env0 "/etc/docker/tee.json" = some false →
          driverConfig env0 "a" taggedConfig = .ok r) ∧
      (':' ∉ "a".data →
        (∀ val, (AList.singleton "a" (AList.singleton "level" "debug") :
            GoMap (GoMap String)).lookup "a" = some val →
          ∀ k, val.lookup k = none → r.lookup k = taggedConfig.lookup ("a" ++ ":" ++ k)) ∧
        ((AList.singleton "a" (AList.singleton "level" "debug") :
            GoMap (GoMap String)).lookup "a" = none →
          ∀ k, r.lookup k = taggedConfig.lookup ("a" ++ ":" ++ k)))) ∧
    (∀ r, driverConfig (exampleFileEnv [] (AList.singleton "a" (AList.singleton "level" "debug")))
        "a" taggedConfig = .ok r →
      r.lookup "level" = some "debug" ∧ r.lookup "tag" = some "x" ∧
        r.lookup "tee-drivers" = none) :=
  ⟨driverConfig_file_wins _ "a" taggedConfig "tee.json" _ rfl rfl rfl, by
    intro r hr
    have h0 : driverConfig
        (exampleFileEnv [] (AList.singleton "a" (AList.singleton "level" "debug")))
        "a" taggedConfig =
        .ok (overrideConfig (namespacedConfig "a" taggedConfig)
          (AList.singleton "level" "debug")) := rfl
    rw [h0] at hr
    cases hr
    exact ⟨rfl, rfl, rfl⟩⟩

/-- C5 as stated fails for a sink name containing a colon: for the sink `a:b` the
inline key `a:b:k` is cut at its first colon and never reaches the result, so
the key `k`, which the file does not define, does not keep its inline value. -/
theorem colon_name_loses_inline_key :
    ¬ ∀ (env : Env) (s : String) (config : GoMap String) (content : String)
      (fileConfig : GoMap (GoMap String)) (k : String),
      fileExists env "/etc/docker/tee.json" = some true →
      env.ReadFile "/etc/docker/tee.json" = .ok content →
      env.Unmarshal content = .ok fileConfig →
        ∃ r, driverConfig env s config = .ok r ∧
          ((fileConfig.lookup s).bind (fun val => val.lookup k) = none →
            r.lookup k = config.lookup (s ++ ":" ++ k)) := by
  intro h
  obtain ⟨r, hr, hk⟩ :=
    h (exampleFileEnv [] (AList.singleton "a:b" (AList.singleton "level" "debug"))) "a:b"
      (AList.singleton "a:b:k" "v") "tee.json"
      (AList.singleton "a:b" (AList.singleton "level" "debug")) "k" rfl rfl rfl
  have hr2 : driverConfig
      (exampleFileEnv [] (AList.singleton "a:b" (AList.singleton "level" "debug"))) "a:b"
      (AList.singleton "a:b:k" "v") = .ok (AList.singleton "level" "debug") := rfl
  rw [hr2] at hr
  cases hr
  have h1 := hk rfl
  have h2 : (AList.singleton "level" "debug" : GoMap String).lookup "k" = none := rfl
  have h3 : (AList.singleton "a:b:k" "v" : GoMap String).lookup ("a:b" ++ ":" ++ "k") =
      some "v" := by decide
  rw [h2, h3] at h1
  cases h1

/-! ## `driverNames` -/

/-- C6: the inline key `tee-drivers` wins whatever the environment holds; without
it the variable `TEE-DRIVERS` is used; without both `driverNames` fails with
`errNoSuchDrivers`, and so does `newTeeLogger`, without any call to the registry,
a constructor or a sink. -/
theorem driverNames_precedence (env : Env) (config : GoMap String) :
    (∀ s, config.lookup "tee-drivers" = some s →
      ∀ env0 : Env, driverNames env0 config = .ok (Split s ',')) ∧
    (∀ s, config.lookup "tee-drivers" = none → env.LookupEnv "TEE-DRIVERS" = some s →
      driverNames env config = .ok (Split s ',')) ∧
    (config.lookup "tee-drivers" = none → env.LookupEnv "TEE-DRIVERS" = none →
      driverNames env config = .error GoError.errNoSuchDrivers ∧
      ∀ (info : Info) (tr : Trace), info.Config = config →
        newTeeLogger env info tr = (.fail GoError.errNoSuchDrivers, tr)) := by
  refine ⟨?_, ?_, ?_⟩
  · intro s h env0
    simp [driverNames, h]
  · intro s h1 h2
    simp [driverNames, h1, h2]
  · intro h1 h2
    have hd : driverNames env config = .error GoError.errNoSuchDrivers := by
      simp [driverNames, h1, h2]
    refine ⟨hd, ?_⟩
    rintro info tr rfl
    simp [newTeeLogger, hd]

/-- The three cases of C6 on examples: inline `a,b` beats the variable `c`; the
variable `c,d` is used when the key is missing; nothing configured fails. -/
theorem driverNames_precedence_witness :
    driverNames { exampleEnv [] with LookupEnv := fun _ => some "c" } exampleConfig
      = .ok ["a", "b"] ∧
    driverNames { exampleEnv [] with LookupEnv := fun _ => some "c,d" } ∅ = .ok ["c", "d"] ∧
    (driverNames (exampleEnv ["a"]) ∅ = .error GoError.errNoSuchDrivers ∧
      ∀ (info : Info) (tr : Trace), info.Config = ∅ →
        newTeeLogger (exampleEnv ["a"]) info tr = (.fail GoError.errNoSuchDrivers, tr)) :=
  ⟨(driverNames_precedence (exampleEnv []) exampleConfig).1 "a,b" rfl _,
   (driverNames_precedence { exampleEnv [] with LookupEnv := fun _ => some "c,d" } ∅).2.1
      "c,d" rfl rfl,
   (driverNames_precedence (exampleEnv ["a"]) ∅).2.2 rfl rfl⟩

/-! ## Traces -/

theorem logCalls_append (a b : Trace) : logCalls (a ++ b) = logCalls a ++ logCalls b := by
  induction a with
  | nil => rfl
  | cons ev a ih => cases ev <;> simp [logCalls, ih]

theorem closeCalls_append (a b : Trace) :
    closeCalls (a ++ b) = closeCalls a ++ closeCalls b := by
  induction a with
  | nil => rfl
  | cons ev a ih => cases ev <;> simp [closeCalls, ih]

theorem createCalls_append (a b : Trace) :
    createCalls (a ++ b) = createCalls a ++ createCalls b := by
  induction a with
  | nil => rfl
  | cons ev a ih => cases ev <;> simp [createCalls, ih]

theorem lookupCalls_append (a b : Trace) :
    lookupCalls (a ++ b) = lookupCalls a ++ lookupCalls b := by
  induction a with
  | nil => rfl
  | cons ev a ih => cases ev <;> simp [lookupCalls, ih]

theorem Answered_append (env : Env) :
    ∀ (a b tr : Trace), Answered env tr (a ++ b) ↔ Answered env tr a ∧ Answered env (tr ++ a) b
  | [], b, tr => by simp [Answered]
  | ev :: a, b, tr => by
    have ih := Answered_append env a b (tr ++ [ev])
    rw [List.cons_append]
    simp only [Answered]
    rw [ih, and_assoc]
    simp

/-! ## `Log` and `Close` -/

theorem logLines_append (a b : Trace) : logLines (a ++ b) = logLines a ++ logLines b := by
  induction a with
  | nil => rfl
  | cons ev a ih => cases ev <;> simp [logLines, ih]

theorem LogLoop_spec (env : Env) (msg : Message) :
    ∀ (es : List ((_ : String) × subLogger)) (line : String) (errs : List GoError) (tr : Trace),
      ∃ evs, (LogLoop env msg es line errs tr).2.2 = tr ++ evs ∧
        (LogLoop env msg es line errs tr).1 = errs ++ (logCalls evs).filterMap (fun c => c.2.2) ∧
        (logCalls evs).map (fun c => c.1) = es.map (fun e => e.2.logger) ∧
        (logLines evs).map (fun c => c.1) = (logCalls evs).map (fun c => c.2.1) ∧
        Chained msg line (logLines evs) ∧
        Answered env tr evs ∧ closeCalls evs = [] ∧ createCalls evs = [] ∧ lookupCalls evs = []
  | [], line, errs, tr => ⟨[], by simp [LogLoop, logCalls, logLines, Chained, Answered,
      closeCalls, createCalls, lookupCalls]⟩
  | lg :: es, line, errs, tr => by
    obtain ⟨evs, h1, h2, h3, h3b, h3c, h4, h5, h6, h7⟩ := LogLoop_spec env msg es
      (env.sinkLogLine tr lg.2.logger { msg with Line := line })
      (match env.sinkLog tr lg.2.logger { msg with Line := line } with
        | some err => errs ++ [err]
        | none => errs)
      (tr ++ [Event.Log lg.2.logger { msg with Line := line }
          (env.sinkLog tr lg.2.logger { msg with Line := line })
          (env.sinkLogLine tr lg.2.logger { msg with Line := line })] ++ [Event.NewMessage])
    refine ⟨Event.Log lg.2.logger { msg with Line := line }
        (env.sinkLog tr lg.2.logger { msg with Line := line })
        (env.sinkLogLine tr lg.2.logger { msg with Line := line }) :: Event.NewMessage :: evs,
      ?_, ?_, ?_, ?_, ?_, ?_, ?_, ?_, ?_⟩
    · simp only [LogLoop, h1]
      simp
    · simp only [LogLoop, h2, logCalls]
      cases env.sinkLog tr lg.2.logger { msg with Line := line } <;> simp
    · simp [logCalls, h3]
    · simp [logCalls, logLines, h3b]
    · exact ⟨rfl, h3c⟩
    · refine ⟨⟨rfl, rfl⟩, trivial, ?_⟩
      simpa using h4
    · simpa [closeCalls] using h5
    · simpa [createCalls] using h6
    · simpa [lookupCalls] using h7

theorem Chained_untouched (msg : Message) :
    ∀ (cs : List (Message × String)) (line : String), Chained msg line cs →
      (∀ c ∈ cs, c.2 = c.1.Line) → ∀ c ∈ cs, c.1 = { msg with Line := line }
  | [], _, _, _, c, hc => by simp at hc
  | c0 :: cs, line, hch, hpure, c, hc => by
    obtain ⟨h0, hrest⟩ := hch
    rcases List.mem_cons.1 hc with rfl | hc
    · exact h0
    · have hline : c0.2 = line := by
        rw [hpure c0 (List.mem_cons_self _ _), h0]
      rw [hline] at hrest
      exact Chained_untouched msg cs line hrest
        (fun c1 h1 => hpure c1 (List.mem_cons_of_mem _ h1)) c hc

theorem CloseLoop_spec (env : Env) :
    ∀ (es : List ((_ : String) × subLogger)) (errs : List GoError) (tr : Trace),
      ∃ evs, (CloseLoop env es errs tr).2 = tr ++ evs ∧
        (CloseLoop env es errs tr).1 = errs ++ (closeCalls evs).filterMap (fun c => c.2) ∧
        (closeCalls evs).map (fun c => c.1) = es.map (fun e => e.2.logger) ∧
        Answered env tr evs ∧ logCalls evs = [] ∧ createCalls evs = [] ∧ lookupCalls evs = []
  | [], errs, tr => ⟨[], by simp [CloseLoop, logCalls, Answered, closeCalls, createCalls,
      lookupCalls]⟩
  | lg :: es, errs, tr => by
    obtain ⟨evs, h1, h2, h3, h4, h5, h6, h7⟩ := CloseLoop_spec env es
      (match env.sinkClose tr lg.2.logger with
        | some err => errs ++ [err]
        | none => errs)
      (tr ++ [Event.Close lg.2.logger (env.sinkClose tr lg.2.logger)])
    refine ⟨Event.Close lg.2.logger (env.sinkClose tr lg.2.logger) :: evs,
      ?_, ?_, ?_, ?_, ?_, ?_, ?_⟩
    · simp only [CloseLoop, h1]
      simp
    · simp only [CloseLoop, h2, closeCalls]
      cases env.sinkClose tr lg.2.logger <;> simp
    · simp [closeCalls, h3]
    · exact ⟨rfl, h4⟩
    · simpa [logCalls] using h5
    · simpa [createCalls] using h6
    · simpa [lookupCalls] using h7

theorem filterMap_eq_nil_of_snd {α β : Type} (f : α → Option β) (l : List α) :
    l.filterMap f = [] ↔ ∀ c ∈ l, f c = none := by
  induction l with
  | nil => simp
  | cons a l ih =>
    cases h : f a <;> simp [List.filterMap_cons, h, ih]

theorem length_filterMap_eq_countP {α β : Type} (f : α → Option β) (l : List α) :
    (l.filterMap f).length = l.countP (fun c => (f c).isSome) := by
  induction l with
  | nil => simp
  | cons a l ih =>
    cases h : f a <;> simp [List.filterMap_cons, h, ih]

theorem Log_fst (env : Env) (l : teeLogger) (msg : Message) (tr : Trace) :
    (l.Log env msg tr).1 =
      if (LogLoop env msg l.loggers.entries msg.Line [] tr).1 = [] then none
      else some ⟨"faild to log on some loggers",
        (LogLoop env msg l.loggers.entries msg.Line [] tr).1⟩ := by
  by_cases h : (LogLoop env msg l.loggers.entries msg.Line [] tr).1 = []
  · simp [teeLogger.Log, h]
  · simp [teeLogger.Log, h, newMultipleError]

theorem Log_snd (env : Env) (l : teeLogger) (msg : Message) (tr : Trace) :
    (l.Log env msg tr).2 =
      (LogLoop env msg l.loggers.entries msg.Line [] tr).2.2 ++
        [Event.PutMessage { msg with Line := (LogLoop env msg l.loggers.entries msg.Line [] tr).2.1 }] := by
  by_cases h : (LogLoop env msg l.loggers.entries msg.Line [] tr).1 = []
  · simp [teeLogger.Log, h]
  · simp [teeLogger.Log, h]

theorem Close_fst (env : Env) (l : teeLogger) (tr : Trace) :
    (l.Close env tr).1 =
      if (CloseLoop env l.loggers.entries [] tr).1 = [] then none
      else some ⟨"faild to close on some loggers", (CloseLoop env l.loggers.entries [] tr).1⟩ := by
  by_cases h : (CloseLoop env l.loggers.entries [] tr).1 = []
  · simp [teeLogger.Close, h]
  · simp [teeLogger.Close, h, newMultipleError]

theorem Close_snd (env : Env) (l : teeLogger) (tr : Trace) :
    (l.Close env tr).2 = (CloseLoop env l.loggers.entries [] tr).2 := by
  by_cases h : (CloseLoop env l.loggers.entries [] tr).1 = []
  · simp [teeLogger.Close, h]
  · simp [teeLogger.Close, h]

/-- C3, amended: `Log` calls the sink of every entry exactly once, in visiting
order and whatever the sinks answer.  Each sink receives a copy of the record
struct whose `Line` is the bytes shared with the record as the sink before it
left them, so every sink receives a message equal to the record when no sink
of the run wrote into these bytes.  `Log` returns nil exactly when no sink
returned an error, and otherwise a `multipleError` whose causes are the errors
returned, in visiting order, so as many as sinks failed. -/
theorem Log_fanout (env : Env) (l : teeLogger) (msg : Message) (tr : Trace) :
    ∃ evs, (l.Log env msg tr).2 = tr ++ evs ∧ Answered env tr evs ∧
      (logCalls evs).map (fun c => c.1) = l.loggers.entries.map (fun e => e.2.logger) ∧
      (logLines evs).map (fun c => c.1) = (logCalls evs).map (fun c => c.2.1) ∧
      Chained msg msg.Line (logLines evs) ∧
      ((∀ c ∈ logLines evs, c.2 = c.1.Line) → ∀ c ∈ logCalls evs, c.2.1 = msg) ∧
      ((l.Log env msg tr).1 = none ↔ ∀ c ∈ logCalls evs, c.2.2 = none) ∧
      ∀ me, (l.Log env msg tr).1 = some me →
        me.errs = (logCalls evs).filterMap (fun c => c.2.2) ∧
        me.errs.length = (logCalls evs).countP (fun c => c.2.2.isSome) ∧
        me.errs ≠ [] := by
  obtain ⟨evs, h1, h2, h3, h3b, h3c, h4, -, -, -⟩ :=
    LogLoop_spec env msg l.loggers.entries msg.Line [] tr
  simp only [List.nil_append] at h2
  have hc : ∀ m1, logCalls (evs ++ [Event.PutMessage m1]) = logCalls evs := by
    intro m1
    simp [logCalls_append, logCalls]
  have hl : ∀ m1, logLines (evs ++ [Event.PutMessage m1]) = logLines evs := by
    intro m1
    simp [logLines_append, logLines]
  refine ⟨evs ++ [Event.PutMessage
    { msg with Line := (LogLoop env msg l.loggers.entries msg.Line [] tr).2.1 }],
    ?_, ?_, ?_, ?_, ?_, ?_, ?_, ?_⟩
  · rw [Log_snd, h1, List.append_assoc]
  · rw [Answered_append]
    exact ⟨h4, trivial, trivial⟩
  · rw [hc, h3]
  · rw [hc, hl, h3b]
  · rw [hl]
    exact h3c
  · rw [hc, hl]
    intro hpure c hcmem
    have hmem : c.2.1 ∈ (logLines evs).map (fun c => c.1) := by
      rw [h3b]
      exact List.mem_map_of_mem (fun c => c.2.1) hcmem
    obtain ⟨c1, hc1, heq⟩ := List.mem_map.1 hmem
    rw [← heq, Chained_untouched msg (logLines evs) msg.Line h3c hpure c1 hc1]
  · rw [hc, ← filterMap_eq_nil_of_snd, ← h2, Log_fst]
    split <;> simp_all
  · intro me hme
    rw [hc, ← length_filterMap_eq_countP, ← h2]
    rw [Log_fst] at hme
    split at hme
    · cases hme
    · rename_i hne
      cases hme
      exact ⟨rfl, rfl, hne⟩

/-- Example for C3: with sinks that do not write into the record, both sinks of
the two-sink logger receive the record itself, once each. -/
theorem Log_fanout_witness :
    logCalls (exampleLogger.Log (exampleEnv []) ⟨"hello", "stdout", 0⟩ []).2 =
      [(7, ⟨"hello", "stdout", 0⟩, none), (8, ⟨"hello", "stdout", 0⟩, none)] ∧
    ∃ evs, (exampleLogger.Log (exampleEnv []) ⟨"hello", "stdout", 0⟩ []).2 = [] ++ evs ∧
      Answered (exampleEnv []) [] evs ∧
      (logCalls evs).map (fun c => c.1) = exampleLogger.loggers.entries.map (fun e => e.2.logger) ∧
      (logLines evs).map (fun c => c.1) = (logCalls evs).map (fun c => c.2.1) ∧
      Chained ⟨"hello", "stdout", 0⟩ "hello" (logLines evs) ∧
      ((∀ c ∈ logLines evs, c.2 = c.1.Line) →
        ∀ c ∈ logCalls evs, c.2.1 = ⟨"hello", "stdout", 0⟩) ∧
      ((exampleLogger.Log (exampleEnv []) ⟨"hello", "stdout", 0⟩ []).1 = none ↔
        ∀ c ∈ logCalls evs, c.2.2 = none) ∧
      ∀ me, (exampleLogger.Log (exampleEnv []) ⟨"hello", "stdout", 0⟩ []).1 = some me →
        me.errs = (logCalls evs).filterMap (fun c => c.2.2) ∧
        me.errs.length = (logCalls evs).countP (fun c => c.2.2.isSome) ∧
        me.errs ≠ [] :=
  ⟨by decide, Log_fanout (exampleEnv []) exampleLogger ⟨"hello", "stdout", 0⟩ []⟩

/-- C3 as stated fails: sink 7, visited first, overwrites the first byte of the
`Line` it is handed; the copy made for sink 8 shares these bytes, so sink 8
receives `Xello`, not a copy equal to the record `hello`. -/
theorem Log_later_sink_sees_write :
    (logCalls (exampleLogger.Log writingEnv ⟨"hello", "stdout", 0⟩ []).2).map
      (fun c => (c.1, c.2.1)) =
      [(7, ⟨"hello", "stdout", 0⟩), (8, ⟨"Xello", "stdout", 0⟩)] ∧
    ¬ ∀ c ∈ logCalls (exampleLogger.Log writingEnv ⟨"hello", "stdout", 0⟩ []).2,
      c.2.1 = ⟨"hello", "stdout", 0⟩ := by
  have h : (logCalls (exampleLogger.Log writingEnv ⟨"hello", "stdout", 0⟩ []).2).map
      (fun c => (c.1, c.2.1)) =
      [(7, ⟨"hello", "stdout", 0⟩), (8, ⟨"Xello", "stdout", 0⟩)] := by decide
  refine ⟨h, ?_⟩
  intro hall
  have hmem : ((8 : Logger), (⟨"Xello", "stdout", 0⟩ : Message)) ∈
      (logCalls (exampleLogger.Log writingEnv ⟨"hello", "stdout", 0⟩ []).2).map
        (fun c => (c.1, c.2.1)) := by
    rw [h]
    simp
  obtain ⟨c, hc, heq⟩ := List.mem_map.1 hmem
  have h1 := hall c hc
  simp only [Prod.mk.injEq] at heq
  rw [h1] at heq
  exact absurd heq.2 (by decide)

/-- C10: `Close` calls `Close` on the sink of every entry exactly once, in
visiting order, whatever the sinks answer; it returns nil exactly when no
`Close` returned an error, and otherwise a `multipleError` with one cause per
failed `Close`. -/
theorem Close_fanout (env : Env) (l : teeLogger) (tr : Trace) :
    ∃ evs, (l.Close env tr).2 = tr ++ evs ∧ Answered env tr evs ∧
      (closeCalls evs).map (fun c => c.1) = l.loggers.entries.map (fun e => e.2.logger) ∧
      ((l.Close env tr).1 = none ↔ ∀ c ∈ closeCalls evs, c.2 = none) ∧
      ∀ me, (l.Close env tr).1 = some me →
        me.errs = (closeCalls evs).filterMap (fun c => c.2) ∧
        me.errs.length = (closeCalls evs).countP (fun c => c.2.isSome) ∧
        me.errs ≠ [] := by
  obtain ⟨evs, h1, h2, h3, h4, -, -, -⟩ := CloseLoop_spec env l.loggers.entries [] tr
  simp only [List.nil_append] at h2
  refine ⟨evs, ?_, h4, h3, ?_, ?_⟩
  · rw [Close_snd, h1]
  · rw [← filterMap_eq_nil_of_snd, ← h2, Close_fst]
    split <;> simp_all
  · intro me hme
    rw [← length_filterMap_eq_countP, ← h2]
    rw [Close_fst] at hme
    split at hme
    · cases hme
    · rename_i hne
      cases hme
      exact ⟨rfl, rfl, hne⟩

/-! ## `Reload` -/

theorem replace_self {β : Type} (m : GoMap β) (a : String) (b : β) (h : m.lookup a = some b) :
    m.replace a b = m := by
  apply AList.ext
  exact List.kreplace_self m.nodupKeys (AList.mem_lookup_iff.1 h)

theorem dlookup_kreplace_ne {β : Type} (a t : String) (b : β) (h : t ≠ a) :
    ∀ l : List ((_ : String) × β), (l.kreplace a b).dlookup t = l.dlookup t
  | [] => rfl
  | ⟨K, V⟩ :: l => by
    by_cases hK : K = a
    · subst hK
      have h1 : List.kreplace K b (⟨K, V⟩ :: l) = ⟨K, b⟩ :: l :=
        List.lookmap_cons_some _ l (by simp)
      have hne : t ≠ (⟨K, b⟩ : (_ : String) × β).1 := h
      have hne2 : t ≠ (⟨K, V⟩ : (_ : String) × β).1 := h
      rw [h1, List.dlookup_cons_ne _ _ hne, List.dlookup_cons_ne _ _ hne2]
    · have hK2 : ¬ a = K := fun e => hK e.symm
      have h1 : List.kreplace a b (⟨K, V⟩ :: l) = ⟨K, V⟩ :: List.kreplace a b l :=
        List.lookmap_cons_none _ l (by simp [hK2])
      rw [h1]
      by_cases ht : t = K
      · subst ht
        rw [List.dlookup_cons_eq, List.dlookup_cons_eq]
      · have hne : t ≠ (⟨K, V⟩ : (_ : String) × β).1 := ht
        rw [List.dlookup_cons_ne _ _ hne, List.dlookup_cons_ne _ _ hne,
          dlookup_kreplace_ne a t b h l]

theorem lookup_replace_ne {β : Type} (m : GoMap β) (a t : String) (b : β) (h : t ≠ a) :
    (m.replace a b).lookup t = m.lookup t :=
  dlookup_kreplace_ne a t b h m.entries

theorem dlookup_kreplace_self {β : Type} (a : String) (b : β) :
    ∀ l : List ((_ : String) × β), a ∈ l.keys → (l.kreplace a b).dlookup a = some b
  | [], h => by simp at h
  | ⟨K, V⟩ :: l, h => by
    by_cases hK : K = a
    · subst hK
      have h1 : List.kreplace K b (⟨K, V⟩ :: l) = ⟨K, b⟩ :: l :=
        List.lookmap_cons_some _ l (by simp)
      rw [h1, List.dlookup_cons_eq]
    · have hK2 : ¬ a = K := fun e => hK e.symm
      have h1 : List.kreplace a b (⟨K, V⟩ :: l) = ⟨K, V⟩ :: List.kreplace a b l :=
        List.lookmap_cons_none _ l (by simp [hK2])
      have hne : a ≠ (⟨K, V⟩ : (_ : String) × β).1 := fun e => hK e.symm
      have hmem : a ∈ l.keys := by
        simp only [List.keys_cons, List.mem_cons] at h
        rcases h with h | h
        · exact absurd h.symm hK
        · exact h
      rw [h1, List.dlookup_cons_ne _ _ hne, dlookup_kreplace_self a b l hmem]

theorem lookup_replace_self {β : Type} (m : GoMap β) (a : String) (b : β) (h : a ∈ m) :
    (m.replace a b).lookup a = some b :=
  dlookup_kreplace_self a b m.entries h

/-- The step of the inner loop of `Reload`. -/
theorem reloadStep_same (acc : GoMap String × Bool) (kv : (_ : String) × String)
    (h : acc.1.lookup kv.1 = some kv.2) :
    (if kv.2 ≠ (acc.1.lookup kv.1).getD "" then (acc.1.insert kv.1 kv.2, true) else acc) = acc := by
  simp [h]

theorem reloadFold_same :
    ∀ (es : List ((_ : String) × String)) (acc : GoMap String × Bool),
      (∀ kv ∈ es, acc.1.lookup kv.1 = some kv.2) →
      es.foldl (fun (acc : GoMap String × Bool) kv =>
        if kv.2 ≠ (acc.1.lookup kv.1).getD "" then (acc.1.insert kv.1 kv.2, true) else acc) acc
        = acc
  | [], _, _ => rfl
  | kv :: es, acc, h => by
    rw [List.foldl_cons, reloadStep_same acc kv (h kv (List.mem_cons_self _ _))]
    exact reloadFold_same es acc (fun kv1 h1 => h kv1 (List.mem_cons_of_mem _ h1))

theorem reloadConfig_same (c stored : GoMap String)
    (h : ∀ k v, c.lookup k = some v → stored.lookup k = some v) :
    reloadConfig c stored = (stored, false) := by
  unfold reloadConfig
  apply reloadFold_same
  intro kv hkv
  exact h kv.1 kv.2 (AList.mem_lookup_iff.2 hkv)

theorem reloadFold_one (stored : GoMap String) (k v : String)
    (hv : v ≠ (stored.lookup k).getD "") :
    ∀ (es : List ((_ : String) × String)) (b : Bool), es.NodupKeys →
      (∀ kv ∈ es, kv.1 ≠ k → stored.lookup kv.1 = some kv.2) → (⟨k, v⟩ : (_ : String) × String) ∈ es →
      es.foldl (fun (acc : GoMap String × Bool) kv =>
        if kv.2 ≠ (acc.1.lookup kv.1).getD "" then (acc.1.insert kv.1 kv.2, true) else acc)
        (stored, b) = (stored.insert k v, true)
  | [], _, _, _, hmem => by simp at hmem
  | ⟨K, V⟩ :: es, b, nd, hall, hmem => by
    rw [List.nodupKeys_cons] at nd
    rw [List.foldl_cons]
    by_cases hK : K = k
    · subst hK
      have hV : V = v := by
        rcases List.mem_cons.1 hmem with h | h
        · cases h
          rfl
        · exact absurd (List.mem_keys_of_mem h) nd.1
      subst hV
      simp only [ne_eq, hv, not_false_eq_true, if_true]
      apply reloadFold_same
      intro kv hkv
      have hne : kv.1 ≠ K := by
        intro e
        have hm : kv.1 ∈ es.keys := List.mem_keys_of_mem hkv
        rw [e] at hm
        exact nd.1 hm
      show (stored.insert K V).lookup kv.1 = some kv.2
      rw [AList.lookup_insert_ne hne]
      exact hall kv (List.mem_cons_of_mem _ hkv) hne
    · have hmem2 : (⟨k, v⟩ : (_ : String) × String) ∈ es := by
        rcases List.mem_cons.1 hmem with h | h
        · cases h
          exact absurd rfl hK
        · exact h
      have hsame := hall ⟨K, V⟩ (List.mem_cons_self _ _) hK
      have hstep := reloadStep_same (stored, b) ⟨K, V⟩ hsame
      simp only at hstep
      rw [hstep]
      exact reloadFold_one stored k v hv es b nd.2
        (fun kv hkv => hall kv (List.mem_cons_of_mem _ hkv)) hmem2

theorem reloadConfig_one (c stored : GoMap String) (k v : String)
    (hk : c.lookup k = some v) (hv : v ≠ (stored.lookup k).getD "")
    (hrest : ∀ k1, k1 ≠ k → c.lookup k1 = stored.lookup k1) :
    reloadConfig c stored = (stored.insert k v, true) := by
  unfold reloadConfig
  apply reloadFold_one stored k v hv c.entries false c.nodupKeys
  · intro kv hkv hne
    rw [← hrest kv.1 hne]
    exact AList.mem_lookup_iff.2 hkv
  · exact AList.mem_lookup_iff.1 hk

theorem reloadEntry_same (env : Env) (config : GoMap (GoMap String)) (name : String)
    (l : subLogger) (tr : Trace)
    (h : ∀ c, config.lookup name = some c →
      ∀ k v, c.lookup k = some v → l.info.Config.lookup k = some v) :
    reloadEntry env config name l tr = (none, l, tr) := by
  unfold reloadEntry
  cases hc : config.lookup name with
  | none => rfl
  | some c => simp [reloadConfig_same c l.info.Config (h c hc)]

theorem ReloadLoop_same (env : Env) (config : GoMap (GoMap String)) :
    ∀ (es : List ((_ : String) × subLogger)) (loggers : GoMap subLogger) (tr : Trace),
      (∀ e ∈ es, loggers.lookup e.1 = some e.2) →
      (∀ e ∈ es, ∀ c, config.lookup e.1 = some c →
        ∀ k v, c.lookup k = some v → e.2.info.Config.lookup k = some v) →
      ReloadLoop env config es loggers tr = (none, loggers, tr)
  | [], _, _, _, _ => rfl
  | e :: es, loggers, tr, hin, hsame => by
    unfold ReloadLoop
    rw [reloadEntry_same env config e.1 e.2 tr (hsame e (List.mem_cons_self _ _))]
    simp only
    rw [replace_self loggers e.1 e.2 (hin e (List.mem_cons_self _ _))]
    exact ReloadLoop_same env config es loggers tr
      (fun e1 h1 => hin e1 (List.mem_cons_of_mem _ h1))
      (fun e1 h1 => hsame e1 (List.mem_cons_of_mem _ h1))

/-- C8: when the configuration passed to `Reload` gives every active sink
exactly its stored configuration, `Reload` returns nil, calls neither the
registry nor a constructor (the trace is unchanged) and leaves the `teeLogger`
as it was. -/
theorem Reload_identical (env : Env) (l : teeLogger) (config : GoMap (GoMap String))
    (tr : Trace)
    (h : ∀ e ∈ l.loggers.entries, ∃ c, config.lookup e.1 = some c ∧
      ∀ k, c.lookup k = e.2.info.Config.lookup k) :
    l.Reload env config tr = (none, l, tr) := by
  unfold teeLogger.Reload
  rw [ReloadLoop_same env config l.loggers.entries l.loggers tr
    (fun e he => AList.mem_lookup_iff.2 he)]
  intro e he c hc k v hv
  obtain ⟨c1, hc1, hk⟩ := h e he
  rw [hc] at hc1
  cases hc1
  rw [← hk k]
  exact hv

/-- Example for C8: reloading the two-sink logger with the configuration it
already stores changes nothing and calls nobody. -/
theorem Reload_identical_witness :
    exampleLogger.Reload (exampleEnv ["a", "b"]) identicalConfig [] = (none, exampleLogger, []) :=
  Reload_identical (exampleEnv ["a", "b"]) exampleLogger identicalConfig [] (by
    intro e he
    have hes : exampleLogger.loggers.entries =
        [⟨"a", ⟨7, ⟨AList.singleton "level" "info", "c0ffee", "web"⟩⟩⟩,
          ⟨"b", ⟨8, ⟨∅, "c0ffee", "web"⟩⟩⟩] := rfl
    rw [hes] at he
    simp only [List.mem_cons, List.mem_singleton, List.not_mem_nil, or_false] at he
    rcases he with rfl | rfl
    · exact ⟨AList.singleton "level" "info", rfl, fun _ => rfl⟩
    · exact ⟨∅, rfl, fun _ => rfl⟩)

theorem ReloadLoop_one (env : Env) (config : GoMap (GoMap String)) (s : String)
    (sub stored : subLogger) (r : Option GoError) :
    ∀ (es : List ((_ : String) × subLogger)) (loggers : GoMap subLogger) (tr tr1 : Trace),
      es.NodupKeys → (⟨s, sub⟩ : (_ : String) × subLogger) ∈ es →
      (∀ e ∈ es, loggers.lookup e.1 = some e.2) →
      (∀ e ∈ es, e.1 ≠ s → ∀ c, config.lookup e.1 = some c →
        ∀ k v, c.lookup k = some v → e.2.info.Config.lookup k = some v) →
      reloadEntry env config s sub tr = (r, stored, tr1) →
      ReloadLoop env config es loggers tr = (r, loggers.replace s stored, tr1)
  | [], _, _, _, _, hmem, _, _, _ => by simp at hmem
  | ⟨K, V⟩ :: es, loggers, tr, tr1, nd, hmem, hin, hsame, hentry => by
    rw [List.nodupKeys_cons] at nd
    by_cases hK : K = s
    · subst hK
      have hV : V = sub := by
        rcases List.mem_cons.1 hmem with h | h
        · cases h
          rfl
        · exact absurd (List.mem_keys_of_mem h) nd.1
      subst hV
      unfold ReloadLoop
      rw [hentry]
      cases r with
      | some err => rfl
      | none =>
        simp only
        apply ReloadLoop_same
        · intro e he
          have hne : e.1 ≠ K := by
            intro e1
            have hm : e.1 ∈ es.keys := List.mem_keys_of_mem he
            rw [e1] at hm
            exact nd.1 hm
          rw [lookup_replace_ne _ _ _ _ hne]
          exact hin e (List.mem_cons_of_mem _ he)
        · intro e he
          have hne : e.1 ≠ K := by
            intro e1
            have hm : e.1 ∈ es.keys := List.mem_keys_of_mem he
            rw [e1] at hm
            exact nd.1 hm
          exact hsame e (List.mem_cons_of_mem _ he) hne
    · have hmem2 : (⟨s, sub⟩ : (_ : String) × subLogger) ∈ es := by
        rcases List.mem_cons.1 hmem with h | h
        · cases h
          exact absurd rfl hK
        · exact h
      unfold ReloadLoop
      rw [reloadEntry_same env config K V tr (hsame ⟨K, V⟩ (List.mem_cons_self _ _) hK)]
      simp only
      rw [replace_self loggers K V (hin ⟨K, V⟩ (List.mem_cons_self _ _))]
      exact ReloadLoop_one env config s sub stored r es loggers tr tr1 nd.2 hmem2
        (fun e he => hin e (List.mem_cons_of_mem _ he))
        (fun e he => hsame e (List.mem_cons_of_mem _ he)) hentry

theorem reloadEntry_changed (env : Env) (config : GoMap (GoMap String)) (s k v : String)
    (sub : subLogger) (c : GoMap String) (creator : Creator) (tr : Trace)
    (hc : config.lookup s = some c) (hk : c.lookup k = some v)
    (hv : v ≠ (sub.info.Config.lookup k).getD "")
    (hrest : ∀ k1, k1 ≠ k → c.lookup k1 = sub.info.Config.lookup k1)
    (hreg : env.GetLogDriver tr s = .ok creator) :
    ∃ r, reloadEntry env config s sub tr =
      (r, { sub with info := { sub.info with Config := sub.info.Config.insert k v } },
        tr ++ [Event.GetLogDriver s none,
          Event.Create s { sub.info with Config := sub.info.Config.insert k v }
            (creator (tr ++ [Event.GetLogDriver s none])
              { sub.info with Config := sub.info.Config.insert k v })]) := by
  unfold reloadEntry
  simp only [hc, reloadConfig_one c sub.info.Config k v hk hv hrest, if_true, hreg]
  cases creator (tr ++ [Event.GetLogDriver s none])
      { sub.info with Config := sub.info.Config.insert k v } with
  | error err => exact ⟨some err, by simp⟩
  | ok newLogger => exact ⟨none, by simp⟩

/-- C9, amended: when the configuration passed to `Reload` differs from the
stored state in exactly one key `k` of exactly one sink `s`, the supplied
configuration of `s` maps `k` to a value other than the one a Go lookup of `k`
in the stored configuration yields (the empty string when `k` is not stored),
and the registry lookup for `s` succeeds, then `Reload` makes exactly one
registry lookup and one constructor call, for `s` and with the stored
configuration updated to the supplied one, and every other entry keeps its
instance and its stored configuration. -/
theorem Reload_one_changed (env : Env) (l : teeLogger) (config : GoMap (GoMap String))
    (tr : Trace) (s k v : String) (sub : subLogger) (c : GoMap String) (creator : Creator)
    (hs : l.loggers.lookup s = some sub) (hc : config.lookup s = some c)
    (hd : DiffersInOneKey l config s k)
    (hk : c.lookup k = some v) (hv : v ≠ (sub.info.Config.lookup k).getD "")
    (hreg : env.GetLogDriver tr s = .ok creator) :
    ∃ info1 res,
      (l.Reload env config tr).2.2 =
        tr ++ [Event.GetLogDriver s none, Event.Create s info1 res] ∧
      res = creator (tr ++ [Event.GetLogDriver s none]) info1 ∧
      info1 = { sub.info with Config := sub.info.Config.insert k v } ∧
      (∀ k1, info1.Config.lookup k1 = c.lookup k1) ∧
      ∀ t, t ≠ s → (l.Reload env config tr).2.1.loggers.lookup t = l.loggers.lookup t := by
  obtain ⟨⟨sub0, c0, hs0, hc0, -, hrest⟩, hothers⟩ := hd
  rw [hs] at hs0
  rw [hc] at hc0
  cases hs0
  cases hc0
  obtain ⟨r, hentry⟩ := reloadEntry_changed env config s k v sub c creator tr hc hk hv hrest hreg
  have hloop := ReloadLoop_one env config s sub _ r l.loggers.entries l.loggers tr _
    l.loggers.nodupKeys (AList.mem_lookup_iff.1 hs) (fun e he => AList.mem_lookup_iff.2 he)
    (by
      intro e he hne c1 hc1 k1 v1 hv1
      obtain ⟨c2, hc2, hk2⟩ := hothers e.1 e.2 hne (AList.mem_lookup_iff.2 he)
      rw [hc1] at hc2
      cases hc2
      rw [← hk2 k1]
      exact hv1) hentry
  refine ⟨_, _, ?_, rfl, rfl, ?_, ?_⟩
  · unfold teeLogger.Reload
    rw [hloop]
  · intro k1
    by_cases h1 : k1 = k
    · subst h1
      show (sub.info.Config.insert k1 v).lookup k1 = c.lookup k1
      rw [AList.lookup_insert, hk]
    · show (sub.info.Config.insert k v).lookup k1 = c.lookup k1
      rw [AList.lookup_insert_ne h1, hrest k1 h1]
  · intro t ht
    unfold teeLogger.Reload
    rw [hloop]
    exact lookup_replace_ne _ _ _ _ ht

theorem reloadEntry_logger (env : Env) (config : GoMap (GoMap String)) (name : String)
    (l : subLogger) (tr : Trace) : (reloadEntry env config name l tr).2.1.logger = l.logger := by
  unfold reloadEntry
  cases config.lookup name with
  | none => rfl
  | some c =>
    simp only
    split
    · cases env.GetLogDriver tr name with
      | error err => rfl
      | ok creator =>
        simp only
        split <;> rfl
    · rfl

theorem ReloadLoop_logger (env : Env) (config : GoMap (GoMap String)) :
    ∀ (es : List ((_ : String) × subLogger)) (loggers : GoMap subLogger) (tr : Trace),
      (∀ e ∈ es, (loggers.lookup e.1).map (fun x => x.logger) = some e.2.logger) →
      ∀ t, ((ReloadLoop env config es loggers tr).2.1.lookup t).map (fun x => x.logger) =
        (loggers.lookup t).map (fun x => x.logger)
  | [], _, _, _, _ => rfl
  | e :: es, loggers, tr, hin, t => by
    have hrep : ∀ t1, ((loggers.replace e.1 (reloadEntry env config e.1 e.2 tr).2.1).lookup t1).map
        (fun x => x.logger) = (loggers.lookup t1).map (fun x => x.logger) := by
      intro t1
      by_cases h1 : t1 = e.1
      · subst h1
        have hmem : e.1 ∈ loggers := by
          rw [← AList.lookup_isSome]
          have := hin e (List.mem_cons_self _ _)
          cases hl : loggers.lookup e.1 with
          | none => simp [hl] at this
          | some x => rfl
        rw [lookup_replace_self _ _ _ hmem, hin e (List.mem_cons_self _ _)]
        simp [reloadEntry_logger]
      · rw [lookup_replace_ne _ _ _ _ h1]
    unfold ReloadLoop
    rcases hentry : reloadEntry env config e.1 e.2 tr with ⟨r, stored, tr1⟩
    rw [hentry] at hrep
    cases r with
    | some err => exact hrep t
    | none =>
      simp only
      rw [ReloadLoop_logger env config es _ tr1 _ t]
      · exact hrep t
      · intro e1 he1
        rw [hrep e1.1]
        exact hin e1 (List.mem_cons_of_mem _ he1)

/-- Whatever happens in `Reload`, no entry ever receives another sink
instance. -/
theorem Reload_logger_unchanged (env : Env) (l : teeLogger) (config : GoMap (GoMap String))
    (tr : Trace) (t : String) :
    ((l.Reload env config tr).2.1.loggers.lookup t).map (fun x => x.logger) =
      (l.loggers.lookup t).map (fun x => x.logger) := by
  unfold teeLogger.Reload
  apply ReloadLoop_logger
  intro e he
  rw [AList.mem_lookup_iff.2 he]
  rfl

/-- C1 at the failing input: sink `a` is stored with `level = info` and reloaded
with `level = debug`; lookup and constructor succeed, the constructor returns
the new instance 1 and `Reload` returns nil, but the entry of `a` still holds
the old instance 7 (with `level = debug` stored), and the next `Log` is
dispatched to 7. -/
theorem Reload_keeps_old_instance :
    (exampleLogger.Reload (exampleEnv ["a", "b"]) changedConfig []).1 = none ∧
    createdLoggers (exampleLogger.Reload (exampleEnv ["a", "b"]) changedConfig []).2.2 = [1] ∧
    ((exampleLogger.Reload (exampleEnv ["a", "b"]) changedConfig []).2.1.loggers.lookup "a").map
      (fun x => (x.logger, x.info.Config.lookup "level")) = some (7, some "debug") ∧
    (logCalls (((exampleLogger.Reload (exampleEnv ["a", "b"]) changedConfig []).2.1.Log
      (exampleEnv ["a", "b"]) ⟨"hello", "stdout", 0⟩ []).2)).map (fun c => c.1) = [7, 8] := by
  refine ⟨rfl, rfl, rfl, rfl⟩

theorem lookup_singleton_ne {β : Type} (k k1 : String) (v : β) (h : k1 ≠ k) :
    (AList.singleton k v : GoMap β).lookup k1 = none := by
  rw [AList.lookup_eq_none, AList.mem_keys, AList.keys_singleton]
  simpa using h

theorem exampleLogger_others (t : String) (sub1 : subLogger) (ht : t ≠ "a")
    (h : exampleLogger.loggers.lookup t = some sub1) :
    t = "b" ∧ sub1 = ⟨8, ⟨∅, "c0ffee", "web"⟩⟩ := by
  have h1 : exampleLogger.loggers.lookup t =
      (AList.singleton "b" ⟨8, ⟨∅, "c0ffee", "web"⟩⟩ : GoMap subLogger).lookup t := by
    unfold exampleLogger
    exact AList.lookup_insert_ne ht
  rw [h1] at h
  by_cases hb : t = "b"
  · subst hb
    have h2 : (AList.singleton "b" ⟨8, ⟨∅, "c0ffee", "web"⟩⟩ : GoMap subLogger).lookup "b" =
        some ⟨8, ⟨∅, "c0ffee", "web"⟩⟩ := rfl
    rw [h2] at h
    cases h
    exact ⟨rfl, rfl⟩
  · rw [lookup_singleton_ne _ _ _ hb] at h
    cases h

theorem exampleLogger_changedConfig : DiffersInOneKey exampleLogger changedConfig "a" "level" := by
  refine ⟨⟨⟨7, ⟨AList.singleton "level" "info", "c0ffee", "web"⟩⟩,
    AList.singleton "level" "debug", rfl, rfl, by decide, ?_⟩, ?_⟩
  · intro k1 h1
    show (AList.singleton "level" "debug" : GoMap String).lookup k1 =
      (AList.singleton "level" "info" : GoMap String).lookup k1
    rw [lookup_singleton_ne _ _ _ h1, lookup_singleton_ne _ _ _ h1]
  · intro t sub1 ht h
    obtain ⟨rfl, rfl⟩ := exampleLogger_others t sub1 ht h
    exact ⟨∅, rfl, fun _ => rfl⟩

theorem exampleLogger_removedConfig : DiffersInOneKey exampleLogger removedConfig "a" "level" := by
  refine ⟨⟨⟨7, ⟨AList.singleton "level" "info", "c0ffee", "web"⟩⟩, ∅, rfl, rfl, by decide, ?_⟩, ?_⟩
  · intro k1 h1
    show (∅ : GoMap String).lookup k1 = (AList.singleton "level" "info" : GoMap String).lookup k1
    rw [lookup_singleton_ne _ _ _ h1]
    rfl
  · intro t sub1 ht h
    obtain ⟨rfl, rfl⟩ := exampleLogger_others t sub1 ht h
    exact ⟨∅, rfl, fun _ => rfl⟩

/-- Example for C9: of the two sinks `a` and `b` only `level` of `a` changes,
from `info` to `debug`; the registry is asked for `a` once, its constructor is
called once with `level = debug`, and `b` is left alone. -/
theorem Reload_one_changed_witness :
    ∃ info1 res,
      (exampleLogger.Reload (exampleEnv ["a", "b"]) changedConfig []).2.2 =
        [] ++ [Event.GetLogDriver "a" none, Event.Create "a" info1 res] ∧
      res = (fun tr _ => Except.ok tr.length : Creator) ([] ++ [Event.GetLogDriver "a" none]) info1 ∧
      info1 = { (⟨AList.singleton "level" "info", "c0ffee", "web"⟩ : Info) with
        Config := (AList.singleton "level" "info" : GoMap String).insert "level" "debug" } ∧
      (∀ k1, info1.Config.lookup k1 =
        (AList.singleton "level" "debug" : GoMap String).lookup k1) ∧
      ∀ t, t ≠ "a" →
        (exampleLogger.Reload (exampleEnv ["a", "b"]) changedConfig []).2.1.loggers.lookup t =
          exampleLogger.loggers.lookup t :=
  Reload_one_changed (exampleEnv ["a", "b"]) exampleLogger changedConfig [] "a" "level" "debug"
    ⟨7, ⟨AList.singleton "level" "info", "c0ffee", "web"⟩⟩ (AList.singleton "level" "debug")
    (fun tr _ => .ok tr.length) rfl rfl exampleLogger_changedConfig rfl (by decide) rfl

/-- C9 as stated fails in two ways.  When the one differing key is a key that
the new configuration of `a` no longer has, `Reload` detects no change and calls
no constructor.  When the value of `level` changed but the registry lookup for
`a` fails, `Reload` stops before any constructor call. -/
theorem Reload_single_difference_refuted :
    (DiffersInOneKey exampleLogger removedConfig "a" "level" ∧
      2 ≤ exampleLogger.loggers.entries.length ∧
      createCalls (exampleLogger.Reload (exampleEnv ["a", "b"]) removedConfig []).2.2 = []) ∧
    (DiffersInOneKey exampleLogger changedConfig "a" "level" ∧
      2 ≤ exampleLogger.loggers.entries.length ∧
      createCalls (exampleLogger.Reload (exampleEnv ["b"]) changedConfig []).2.2 = []) :=
  ⟨⟨exampleLogger_removedConfig, by decide, rfl⟩, ⟨exampleLogger_changedConfig, by decide, rfl⟩⟩

/-! ## `newTeeLogger` -/

theorem closeLoggers_extends (env : Env) :
    ∀ (es : List ((_ : String) × subLogger)) (tr : Trace),
      ∃ evs, closeLoggers env es tr = tr ++ evs
  | [], tr => ⟨[], by simp [closeLoggers]⟩
  | l :: es, tr => by
    obtain ⟨evs, h⟩ := closeLoggers_extends env es
      (tr ++ [Event.Close l.2.logger (env.sinkClose tr l.2.logger)])
    exact ⟨Event.Close l.2.logger (env.sinkClose tr l.2.logger) :: evs, by
      simp only [closeLoggers, h]
      simp⟩

theorem newTeeLoggerLoop_extends (env : Env) (info : Info) :
    ∀ (names : List String) (loggers : GoMap subLogger) (tr : Trace),
      ∃ evs, (newTeeLoggerLoop env info names loggers tr).2 = tr ++ evs
  | [], loggers, tr => ⟨[], by simp [newTeeLoggerLoop]⟩
  | name :: names, loggers, tr => by
    unfold newTeeLoggerLoop
    cases hreg : env.GetLogDriver tr name with
    | error e =>
      obtain ⟨evs, h⟩ := closeLoggers_extends env loggers.entries
        (tr ++ [Event.GetLogDriver name (some e)])
      exact ⟨Event.GetLogDriver name (some e) :: evs, by simpa using h⟩
    | ok creator =>
      simp only
      cases hcfg : driverConfig env name info.Config with
      | crash => exact ⟨[Event.GetLogDriver name none], rfl⟩
      | fail e =>
        obtain ⟨evs, h⟩ := closeLoggers_extends env loggers.entries
          (tr ++ [Event.GetLogDriver name none])
        exact ⟨Event.GetLogDriver name none :: evs, by simpa using h⟩
      | ok cfg =>
        simp only
        cases hres : creator (tr ++ [Event.GetLogDriver name none])
            { info with Config := cfg } with
        | error e =>
          obtain ⟨evs, h⟩ := closeLoggers_extends env loggers.entries
            (tr ++ [Event.GetLogDriver name none] ++
              [Event.Create name { info with Config := cfg } (.error e)])
          exact ⟨Event.GetLogDriver name none ::
            Event.Create name { info with Config := cfg } (.error e) :: evs, by simpa using h⟩
        | ok l =>
          obtain ⟨evs, h⟩ := newTeeLoggerLoop_extends env info names
            (loggers.insert name ⟨l, { info with Config := cfg }⟩)
            (tr ++ [Event.GetLogDriver name none] ++
              [Event.Create name { info with Config := cfg } (.ok l)])
          exact ⟨Event.GetLogDriver name none ::
            Event.Create name { info with Config := cfg } (.ok l) :: evs, by simpa using h⟩

theorem newTeeLoggerLoop_run (env : Env) (info : Info) :
    ∀ (names : List String) (loggers : GoMap subLogger) (tr evs : Trace),
      (newTeeLoggerLoop env info names loggers tr).2 = tr ++ evs →
      (∀ ev ∈ evs, ev.failure = none) →
      (∀ n ∈ names, ∃ cfg, driverConfig env n info.Config = .ok cfg) →
      ∃ tl, (newTeeLoggerLoop env info names loggers tr).1 = .ok tl ∧
        (∀ n, n ∈ tl.loggers ↔ n ∈ names ∨ n ∈ loggers) ∧
        ∀ n sub, tl.loggers.lookup n = some sub →
          (n ∈ names ∧ driverConfig env n info.Config = .ok sub.info.Config ∧
            sub.info = { info with Config := sub.info.Config }) ∨
          loggers.lookup n = some sub
  | [], loggers, tr, _, _, _, _ => ⟨⟨loggers⟩, rfl, by simp, fun _ _ h => Or.inr h⟩
  | name :: names, loggers, tr, evs, htr, hok, hcfg => by
    obtain ⟨cfg, hcfg1⟩ := hcfg name (List.mem_cons_self _ _)
    unfold newTeeLoggerLoop at htr ⊢
    cases hreg : env.GetLogDriver tr name with
    | error e =>
      exfalso
      simp only [hreg] at htr
      obtain ⟨cevs, hc⟩ := closeLoggers_extends env loggers.entries
        (tr ++ [Event.GetLogDriver name (some e)])
      rw [hc, List.append_assoc] at htr
      have hevs := List.append_cancel_left htr
      have hbad := hok (Event.GetLogDriver name (some e)) (by rw [← hevs]; simp)
      cases hbad
    | ok creator =>
      simp only [hreg, hcfg1] at htr ⊢
      cases hres : creator (tr ++ [Event.GetLogDriver name none])
          { info with Config := cfg } with
      | error e =>
        exfalso
        simp only [hres] at htr
        obtain ⟨cevs, hc⟩ := closeLoggers_extends env loggers.entries
          (tr ++ [Event.GetLogDriver name none] ++
            [Event.Create name { info with Config := cfg } (.error e)])
        rw [hc, List.append_assoc, List.append_assoc] at htr
        have hevs := List.append_cancel_left htr
        have hbad := hok (Event.Create name { info with Config := cfg } (.error e))
          (by rw [← hevs]; simp)
        cases hbad
      | ok l =>
        simp only [hres] at htr ⊢
        obtain ⟨evs1, hext⟩ := newTeeLoggerLoop_extends env info names
          (loggers.insert name ⟨l, { info with Config := cfg }⟩)
          (tr ++ [Event.GetLogDriver name none] ++
            [Event.Create name { info with Config := cfg } (.ok l)])
        have hevs : evs = Event.GetLogDriver name none ::
            Event.Create name { info with Config := cfg } (.ok l) :: evs1 := by
          rw [hext, List.append_assoc, List.append_assoc] at htr
          exact (List.append_cancel_left htr).symm
        obtain ⟨tl, hloop, hkeys, hlook⟩ := newTeeLoggerLoop_run env info names
          (loggers.insert name ⟨l, { info with Config := cfg }⟩)
          (tr ++ [Event.GetLogDriver name none] ++
            [Event.Create name { info with Config := cfg } (.ok l)]) evs1 hext
          (fun ev hev => hok ev (by rw [hevs]; simp [hev]))
          (fun n hn => hcfg n (List.mem_cons_of_mem _ hn))
        refine ⟨tl, hloop, ?_, ?_⟩
        · intro n
          rw [hkeys n, AList.mem_insert, List.mem_cons]
          tauto
        · intro n sub hsub
          rcases hlook n sub hsub with ⟨hn, h⟩ | h
          · exact Or.inl ⟨List.mem_cons_of_mem _ hn, h⟩
          · by_cases hname : n = name
            · subst hname
              rw [AList.lookup_insert] at h
              cases h
              exact Or.inl ⟨List.mem_cons_self _ _, hcfg1, rfl⟩
            · rw [AList.lookup_insert_ne hname] at h
              exact Or.inr h

/-- C7: when the configuration resolves to the names `names`, every registry
lookup and every constructor call that `newTeeLogger` makes succeeds and the
configuration derivation succeeds for every name, `newTeeLogger` returns a
`teeLogger` whose entry names are exactly the resolved names and whose entries
each store `driverConfig` of their name on the base configuration. -/
theorem newTeeLogger_success (env : Env) (info : Info) (tr evs : Trace) (names : List String)
    (hn : driverNames env info.Config = .ok names)
    (htr : (newTeeLogger env info tr).2 = tr ++ evs)
    (hok : ∀ ev ∈ evs, ev.failure = none)
    (hcfg : ∀ n ∈ names, ∃ cfg, driverConfig env n info.Config = .ok cfg) :
    ∃ tl, (newTeeLogger env info tr).1 = .ok tl ∧
      (∀ n, n ∈ tl.loggers.keys ↔ n ∈ names) ∧
      ∀ n sub, tl.loggers.lookup n = some sub →
        driverConfig env n info.Config = .ok sub.info.Config := by
  unfold newTeeLogger at htr ⊢
  rw [hn] at htr ⊢
  obtain ⟨tl, hloop, hkeys, hlook⟩ :=
    newTeeLoggerLoop_run env info names ∅ tr evs htr hok hcfg
  refine ⟨tl, hloop, ?_, ?_⟩
  · intro n
    rw [← AList.mem_keys, hkeys n]
    simp
  · intro n sub hsub
    rcases hlook n sub hsub with ⟨_, h, _⟩ | h
    · exact h
    · simp at h

/-- Example for C7: the constructor of `a` rejects a configuration without
`level`, so it does not succeed on every input; in the run for
`tee-drivers = a`, `a:level = info` the lookup and the constructor call succeed,
and the logger has the single entry `a`. -/
theorem newTeeLogger_success_witness :
    (newTeeLogger pickyEnv ⟨AList.singleton "tee-drivers" "a", "c0ffee", "web"⟩ []).1 =
      .fail (.other "missing level") ∧
    ∃ tl, (newTeeLogger pickyEnv ⟨singleConfig, "c0ffee", "web"⟩ []).1 = .ok tl ∧
      (∀ n, n ∈ tl.loggers.keys ↔ n ∈ ["a"]) ∧
      ∀ n sub, tl.loggers.lookup n = some sub →
        driverConfig pickyEnv n singleConfig = .ok sub.info.Config :=
  ⟨rfl, newTeeLogger_success pickyEnv ⟨singleConfig, "c0ffee", "web"⟩ []
    [Event.GetLogDriver "a" none,
      Event.Create "a" ⟨AList.singleton "level" "info", "c0ffee", "web"⟩ (.ok 1)]
    ["a"] rfl rfl
    (by
      intro ev hev
      simp only [List.mem_cons, List.mem_singleton, List.not_mem_nil, or_false] at hev
      rcases hev with rfl | rfl <;> rfl)
    (fun n _ => ⟨_, driverConfig_no_file _ n singleConfig rfl⟩)⟩

/-- C2 at the failing input: `tee-drivers = a,a,b` with only `a` registered.
Two instances are constructed for `a` (handles 1 and 3), the lookup of `b`
fails and `newTeeLogger` returns that error and no logger, but `Close` is
invoked on instance 3 only: instance 1 was overwritten in the map by the second
`a` and is never closed. -/
theorem newTeeLogger_repeated_name_leak :
    (newTeeLogger (exampleEnv ["a"]) ⟨repeatedConfig, "c0ffee", "web"⟩ []).1 =
      .fail (.other "logger: no log driver named") ∧
    createdLoggers (newTeeLogger (exampleEnv ["a"]) ⟨repeatedConfig, "c0ffee", "web"⟩ []).2 =
      [1, 3] ∧
    (closeCalls (newTeeLogger (exampleEnv ["a"]) ⟨repeatedConfig, "c0ffee", "web"⟩ []).2).map
      (fun c => c.1) = [3] :=
  ⟨rfl, rfl, rfl⟩

theorem closeLoggers_spec (env : Env) :
    ∀ (es : List ((_ : String) × subLogger)) (tr : Trace),
      ∃ evs, closeLoggers env es tr = tr ++ evs ∧
        (closeCalls evs).map (fun c => c.1) = es.map (fun e => e.2.logger) ∧
        createCalls evs = []
  | [], tr => ⟨[], by simp [closeLoggers, closeCalls, createCalls]⟩
  | l :: es, tr => by
    obtain ⟨evs, h1, h2, h3⟩ := closeLoggers_spec env es
      (tr ++ [Event.Close l.2.logger (env.sinkClose tr l.2.logger)])
    refine ⟨Event.Close l.2.logger (env.sinkClose tr l.2.logger) :: evs, ?_, ?_, ?_⟩
    · simp only [closeLoggers, h1]
      simp
    · simp [closeCalls, h2]
    · simpa [createCalls] using h3

theorem createdLoggers_append (a b : Trace) :
    createdLoggers (a ++ b) = createdLoggers a ++ createdLoggers b := by
  simp [createdLoggers, createCalls_append]

theorem createdLoggers_of_createCalls_nil (evs : Trace) (h : createCalls evs = []) :
    createdLoggers evs = [] := by
  simp [createdLoggers, h]

theorem newTeeLoggerLoop_failure (env : Env) (info : Info) :
    ∀ (names : List String) (loggers : GoMap subLogger) (tr tr1 : Trace) (err : GoError),
      names.Nodup → (∀ n ∈ names, n ∉ loggers) →
      newTeeLoggerLoop env info names loggers tr = (.fail err, tr1) →
      ∃ evs, tr1 = tr ++ evs ∧
        (closeCalls evs).map (fun c => c.1) =
          (createdLoggers evs).reverse ++ loggers.entries.map (fun e => e.2.logger)
  | [], loggers, tr, tr1, err, _, _, h => by
    simp [newTeeLoggerLoop] at h
  | name :: names, loggers, tr, tr1, err, nd, hfresh, h => by
    unfold newTeeLoggerLoop at h
    cases hreg : env.GetLogDriver tr name with
    | error e =>
      simp only [hreg, Prod.mk.injEq] at h
      obtain ⟨evs, h1, h2, h3⟩ := closeLoggers_spec env loggers.entries
        (tr ++ [Event.GetLogDriver name (some e)])
      refine ⟨Event.GetLogDriver name (some e) :: evs, ?_, ?_⟩
      · rw [← h.2, h1]
        simp
      · have hc : createdLoggers (Event.GetLogDriver name (some e) :: evs) = [] :=
          createdLoggers_of_createCalls_nil _ (by simpa [createCalls] using h3)
        rw [hc]
        simpa [closeCalls] using h2
    | ok creator =>
      simp only [hreg] at h
      cases hcfg : driverConfig env name info.Config with
      | crash => simp [hcfg] at h
      | fail e =>
        simp only [hcfg, Prod.mk.injEq] at h
        obtain ⟨evs, h1, h2, h3⟩ := closeLoggers_spec env loggers.entries
          (tr ++ [Event.GetLogDriver name none])
        refine ⟨Event.GetLogDriver name none :: evs, ?_, ?_⟩
        · rw [← h.2, h1]
          simp
        · have hc : createdLoggers (Event.GetLogDriver name none :: evs) = [] :=
            createdLoggers_of_createCalls_nil _ (by simpa [createCalls] using h3)
          rw [hc]
          simpa [closeCalls] using h2
      | ok cfg =>
        simp only [hcfg] at h
        cases hres : creator (tr ++ [Event.GetLogDriver name none])
            { info with Config := cfg } with
        | error e =>
          simp only [hres, Prod.mk.injEq] at h
          obtain ⟨evs, h1, h2, h3⟩ := closeLoggers_spec env loggers.entries
            (tr ++ [Event.GetLogDriver name none] ++
              [Event.Create name { info with Config := cfg } (.error e)])
          refine ⟨Event.GetLogDriver name none ::
            Event.Create name { info with Config := cfg } (.error e) :: evs, ?_, ?_⟩
          · rw [← h.2, h1]
            simp
          · have hc : createdLoggers (Event.GetLogDriver name none ::
                Event.Create name { info with Config := cfg } (.error e) :: evs) = [] := by
              simp [createdLoggers, createCalls, h3]
            rw [hc]
            simpa [closeCalls] using h2
        | ok l =>
          simp only [hres] at h
          have hnot : name ∉ loggers := hfresh name (List.mem_cons_self _ _)
          obtain ⟨evs, h1, h2⟩ := newTeeLoggerLoop_failure env info names _ _ tr1 err
            (List.nodup_cons.1 nd).2
            (by
              intro n hn hmem
              rw [AList.mem_insert] at hmem
              rcases hmem with rfl | hmem
              · exact (List.nodup_cons.1 nd).1 hn
              · exact hfresh n (List.mem_cons_of_mem _ hn) hmem) h
          refine ⟨Event.GetLogDriver name none ::
            Event.Create name { info with Config := cfg } (.ok l) :: evs, ?_, ?_⟩
          · rw [h1]
            simp
          · have hc : createdLoggers (Event.GetLogDriver name none ::
                Event.Create name { info with Config := cfg } (.ok l) :: evs) =
                l :: createdLoggers evs := by
              simp [createdLoggers, createCalls]
            rw [hc]
            rw [AList.insert_entries_of_neg hnot] at h2
            simpa [closeCalls] using h2

/-- Without repeated names the unwinding is complete: when `newTeeLogger` fails
on a list of pairwise distinct names, `Close` has been invoked exactly once on
every instance constructed before the failure. -/
theorem newTeeLogger_failure_closes_all (env : Env) (info : Info) (tr tr1 : Trace)
    (names : List String) (err : GoError)
    (hn : driverNames env info.Config = .ok names) (hnd : names.Nodup)
    (h : newTeeLogger env info tr = (.fail err, tr1)) :
    ∃ evs, tr1 = tr ++ evs ∧
      ((closeCalls evs).map (fun c => c.1)).Perm (createdLoggers evs) := by
  unfold newTeeLogger at h
  rw [hn] at h
  obtain ⟨evs, h1, h2⟩ := newTeeLoggerLoop_failure env info names ∅ tr tr1 err hnd
    (fun n _ => AList.not_mem_empty n) h
  refine ⟨evs, h1, ?_⟩
  rw [h2]
  simp

/-! ## `multipleError` -/

theorem join_cons_text (a : String) (l : List String) :
    String.join (a :: l) = a ++ String.join l := by
  apply String.ext
  simp [String.data_join]

theorem foldl_error_text (errs : List GoError) :
    ∀ buf : String, errs.foldl (fun buf err => buf ++ ("; " ++ err.Error)) buf =
      buf ++ String.join (errs.map fun e => "; " ++ e.Error) := by
  induction errs with
  | nil =>
    intro buf
    simp [String.join]
  | cons e errs ih =>
    intro buf
    rw [List.foldl_cons, ih, List.map_cons, join_cons_text, String.append_assoc]

/-- C18: the `Error()` text of `newMultipleError(m, errs)` is `m` followed, for
each cause in list order, by `"; "` and the text of the cause, hence `m` alone
for an empty list; and a `multipleError` returned by `Log` or by `Close` never
has an empty cause list. -/
theorem multipleError_Error_text (m : String) (errs : List GoError) :
    (newMultipleError m errs).Error = m ++ String.join (errs.map fun e => "; " ++ e.Error) ∧
    (newMultipleError m []).Error = m ∧
    (∀ (env : Env) (l : teeLogger) (msg : Message) (tr : Trace) (me : multipleError),
      (l.Log env msg tr).1 = some me → me.errs ≠ []) ∧
    (∀ (env : Env) (l : teeLogger) (tr : Trace) (me : multipleError),
      (l.Close env tr).1 = some me → me.errs ≠ []) := by
  refine ⟨foldl_error_text errs m, rfl, ?_, ?_⟩
  · intro env l msg tr me hme
    rw [Log_fst] at hme
    split at hme
    · cases hme
    · rename_i hne
      cases hme
      exact hne
  · intro env l tr me hme
    rw [Close_fst] at hme
    split at hme
    · cases hme
    · rename_i hne
      cases hme
      exact hne

/-! ## `driverNames` and `strings.Split` -/

theorem splitChars_ne_nil (sep : Char) : ∀ cs, splitChars sep cs ≠ []
  | [] => by simp [splitChars]
  | c :: cs => by
    unfold splitChars
    split
    · simp
    · split <;> simp

theorem splitChars_length (sep : Char) :
    ∀ cs, (splitChars sep cs).length = cs.count sep + 1
  | [] => by simp [splitChars]
  | c :: cs => by
    have ih := splitChars_length sep cs
    unfold splitChars
    by_cases hc : c = sep
    · simp [hc, ih]
    · have hc2 : ¬ (c == sep) = true := by simpa using hc
      rw [if_neg hc, List.count_cons, if_neg hc2]
      cases h : splitChars sep cs with
      | nil => exact absurd h (splitChars_ne_nil sep cs)
      | cons p ps =>
        rw [h] at ih
        simpa using ih

theorem splitChars_no_sep (sep : Char) :
    ∀ cs, ∀ p ∈ splitChars sep cs, sep ∉ p
  | [] => by simp [splitChars]
  | c :: cs => by
    have ih := splitChars_no_sep sep cs
    unfold splitChars
    by_cases hc : c = sep
    · rw [if_pos hc]
      intro p hp
      rcases List.mem_cons.1 hp with rfl | hp
      · simp
      · exact ih p hp
    · rw [if_neg hc]
      cases h : splitChars sep cs with
      | nil => exact absurd h (splitChars_ne_nil sep cs)
      | cons q qs =>
        rw [h] at ih
        intro p hp
        rcases List.mem_cons.1 hp with rfl | hp
        · have hq := ih q (List.mem_cons_self _ _)
          simp only [List.mem_cons, not_or]
          exact ⟨fun e => hc e.symm, hq⟩
        · exact ih p (List.mem_cons_of_mem _ hp)

theorem intercalate_cons_cons {α : Type} (sep x y : List α) (zs : List (List α)) :
    sep.intercalate (x :: y :: zs) = x ++ sep ++ sep.intercalate (y :: zs) := by
  simp [List.intercalate, List.intersperse]

theorem intercalate_single {α : Type} (sep x : List α) : sep.intercalate [x] = x := by
  simp [List.intercalate, List.intersperse]

theorem intercalate_splitChars (sep : Char) :
    ∀ cs, [sep].intercalate (splitChars sep cs) = cs
  | [] => by simp [splitChars, List.intercalate, List.intersperse]
  | c :: cs => by
    have ih := intercalate_splitChars sep cs
    unfold splitChars
    cases h : splitChars sep cs with
    | nil => exact absurd h (splitChars_ne_nil sep cs)
    | cons q qs =>
      rw [h] at ih
      by_cases hc : c = sep
      · rw [if_pos hc, intercalate_cons_cons, ih, hc]
        rfl
      · rw [if_neg hc]
        cases qs with
        | nil =>
          rw [intercalate_single] at ih
          simp [intercalate_single, ih]
        | cons r rs =>
          rw [intercalate_cons_cons] at ih
          rw [intercalate_cons_cons, ← ih]
          simp

theorem Split_data (s : String) (sep : Char) :
    (Split s sep).map String.data = splitChars sep s.data := by
  simp [Split, Function.comp_def]

/-- C19: when the configuration has the key `tee-drivers` with value `s`,
`driverNames` succeeds with a non-empty list that has one element more than `s`
has commas, whose elements contain no comma and whose join with `","` is `s`
again (nothing trimmed, nothing dropped); the empty value gives the single name
`""`. -/
theorem driverNames_split (env : Env) (config : GoMap String) (s : String)
    (h : config.lookup "tee-drivers" = some s) :
    ∃ names, driverNames env config = .ok names ∧ names ≠ [] ∧
      names.length = s.data.count ',' + 1 ∧ (∀ n ∈ names, ',' ∉ n.data) ∧
      Join names ',' = s ∧ (s = "" → names = [""]) := by
  refine ⟨Split s ',', by simp [driverNames, h], ?_, ?_, ?_, ?_, ?_⟩
  · intro h0
    have := congrArg (List.map String.data) h0
    rw [Split_data] at this
    exact splitChars_ne_nil _ _ (by simpa using this)
  · have := congrArg List.length (Split_data s ',')
    rw [List.length_map] at this
    rw [this, splitChars_length]
  · intro n hn
    apply splitChars_no_sep ',' s.data
    rw [← Split_data]
    exact List.mem_map_of_mem _ hn
  · unfold Join
    rw [Split_data, intercalate_splitChars]
  · rintro rfl
    rfl

/-- Examples for C19: `a,b` gives the names `a` and `b`; ` a,,b ` keeps its
blanks and its empty name; the empty value gives the single empty name. -/
theorem driverNames_split_witness :
    (∃ names, driverNames (exampleEnv []) exampleConfig = .ok names ∧ names ≠ [] ∧
      names.length = "a,b".data.count ',' + 1 ∧ (∀ n ∈ names, ',' ∉ n.data) ∧
      Join names ',' = "a,b" ∧ ("a,b" = "" → names = [""])) ∧
    driverNames (exampleEnv []) exampleConfig = .ok ["a", "b"] ∧
    driverNames (exampleEnv []) (AList.singleton "tee-drivers" " a,,b ") = .ok [" a", "", "b "] ∧
    driverNames (exampleEnv []) (AList.singleton "tee-drivers" "") = .ok [""] :=
  ⟨driverNames_split (exampleEnv []) exampleConfig "a,b" rfl, rfl, rfl, rfl⟩

/-! ## The file layer of `driverConfig` -/

/-- What `driverConfig` does for each outcome of probing, reading and decoding
the file. -/
theorem driverConfig_file_layer (env : Env) (s : String) (config : GoMap String) :
    (env.Stat "/etc/docker/tee.json" = .failed true →
      driverConfig env s config = .ok (namespacedConfig s config)) ∧
    (env.Stat "/etc/docker/tee.json" = .found ⟨true⟩ →
      driverConfig env s config = .ok (namespacedConfig s config)) ∧
    (∀ err, env.Stat "/etc/docker/tee.json" = .found ⟨false⟩ →
      env.ReadFile "/etc/docker/tee.json" = .error err → driverConfig env s config = .fail err) ∧
    (∀ content err, env.Stat "/etc/docker/tee.json" = .found ⟨false⟩ →
      env.ReadFile "/etc/docker/tee.json" = .ok content → env.Unmarshal content = .error err →
      driverConfig env s config = .fail err) ∧
    (env.Stat "/etc/docker/tee.json" = .failed false → driverConfig env s config = .crash) := by
  refine ⟨?_, ?_, ?_, ?_, ?_⟩
  · intro h
    simp [driverConfig, fileExists, h]
  · intro h
    simp [driverConfig, fileExists, h]
  · intro err h1 h2
    simp [driverConfig, fileExists, h1, h2]
  · intro content err h1 h2 h3
    simp [driverConfig, fileExists, h1, h2, h3]
  · intro h
    simp [driverConfig, fileExists, h]

/-- C14 at the failing input: `os.Stat` on `/etc/docker/tee.json` fails with an
error other than not-exist (permission denied, not a directory); `fileExists`
then calls `info.IsDir()` on the nil `info` and `driverConfig` panics instead of
returning a configuration or an error, and so does `newTeeLogger`. -/
theorem driverConfig_stat_error_crash :
    fileExists { exampleEnv ["a", "b"] with Stat := fun _ => .failed false }
      "/etc/docker/tee.json" = none ∧
    driverConfig { exampleEnv ["a", "b"] with Stat := fun _ => .failed false } "a" exampleConfig
      = .crash ∧
    (newTeeLogger { exampleEnv ["a", "b"] with Stat := fun _ => .failed false }
      ⟨exampleConfig, "c0ffee", "web"⟩ []).1 = .crash :=
  ⟨rfl, rfl, rfl⟩

/-! ## `ReadLogs` -/

theorem ReadLogsLoop_none (env : Env) (readConfig : ReadConfig) :
    ∀ (es : List ((_ : String) × subLogger)) (tr : Trace),
      (∀ e ∈ es, env.isLogReader e.2.logger = false) →
      ReadLogsLoop env readConfig es tr =
        (env.NewLogWatcher tr, tr ++ [Event.NewLogWatcher (env.NewLogWatcher tr)])
  | [], _, _ => rfl
  | e :: es, tr, h => by
    unfold ReadLogsLoop
    rw [h e (List.mem_cons_self _ _)]
    simp only [Bool.false_eq_true, if_false]
    exact ReadLogsLoop_none env readConfig es tr (fun e1 h1 => h e1 (List.mem_cons_of_mem _ h1))

theorem ReadLogsLoop_first (env : Env) (readConfig : ReadConfig)
    (e : (_ : String) × subLogger) (post : List ((_ : String) × subLogger))
    (he : env.isLogReader e.2.logger = true) :
    ∀ (pre : List ((_ : String) × subLogger)) (tr : Trace),
      (∀ e1 ∈ pre, env.isLogReader e1.2.logger = false) →
      ReadLogsLoop env readConfig (pre ++ e :: post) tr =
        (env.sinkReadLogs tr e.2.logger readConfig,
          tr ++ [Event.ReadLogs e.2.logger readConfig (env.sinkReadLogs tr e.2.logger readConfig)])
  | [], tr, _ => by
    simp [ReadLogsLoop, he]
  | e0 :: pre, tr, h => by
    rw [List.cons_append]
    unfold ReadLogsLoop
    rw [h e0 (List.mem_cons_self _ _)]
    simp only [Bool.false_eq_true, if_false]
    exact ReadLogsLoop_first env readConfig e post he pre tr
      (fun e1 h1 => h e1 (List.mem_cons_of_mem _ h1))

/-- C15: when no entry's sink is a `LogReader`, `ReadLogs` returns what
`logger.NewLogWatcher()` returns and calls no sink; otherwise it returns the
answer of `ReadLogs(readConfig)` on the first entry whose sink is a `LogReader`,
and that one call is the only call it makes. -/
theorem ReadLogs_first_reader (env : Env) (l : teeLogger) (readConfig : ReadConfig)
    (tr : Trace) :
    ((∀ e ∈ l.loggers.entries, env.isLogReader e.2.logger = false) →
      l.ReadLogs env readConfig tr =
        (env.NewLogWatcher tr, tr ++ [Event.NewLogWatcher (env.NewLogWatcher tr)])) ∧
    (∀ pre e post, l.loggers.entries = pre ++ e :: post →
      (∀ e1 ∈ pre, env.isLogReader e1.2.logger = false) → env.isLogReader e.2.logger = true →
      l.ReadLogs env readConfig tr =
        (env.sinkReadLogs tr e.2.logger readConfig,
          tr ++ [Event.ReadLogs e.2.logger readConfig
            (env.sinkReadLogs tr e.2.logger readConfig)])) := by
  constructor
  · intro h
    exact ReadLogsLoop_none env readConfig _ tr h
  · intro pre e post hes hpre he
    unfold teeLogger.ReadLogs
    rw [hes]
    exact ReadLogsLoop_first env readConfig e post he pre tr hpre

/-- Examples for C15: a logger whose only sink (instance 7) cannot be read
gets the fresh watcher 0; in the two-sink logger the sink 7 is passed over and
the sink 8 answers, with no other call. -/
theorem ReadLogs_first_reader_witness :
    (⟨AList.singleton "a" ⟨7, ⟨∅, "c0ffee", "web"⟩⟩⟩ : teeLogger).ReadLogs (exampleEnv [])
      ⟨10, false⟩ [] = (0, [Event.NewLogWatcher 0]) ∧
    exampleLogger.ReadLogs (exampleEnv []) ⟨10, false⟩ [] =
      (108, [Event.ReadLogs 8 ⟨10, false⟩ 108]) :=
  ⟨(ReadLogs_first_reader (exampleEnv []) ⟨AList.singleton "a" ⟨7, ⟨∅, "c0ffee", "web"⟩⟩⟩
      ⟨10, false⟩ []).1 (by
        intro e he
        have hes : (AList.singleton "a" (⟨7, ⟨∅, "c0ffee", "web"⟩⟩ : subLogger) :
            GoMap subLogger).entries = [⟨"a", ⟨7, ⟨∅, "c0ffee", "web"⟩⟩⟩] := rfl
        rw [hes] at he
        simp only [List.mem_singleton] at he
        subst he
        rfl),
   (ReadLogs_first_reader (exampleEnv []) exampleLogger ⟨10, false⟩ []).2
      [⟨"a", ⟨7, ⟨AList.singleton "level" "info", "c0ffee", "web"⟩⟩⟩]
      ⟨"b", ⟨8, ⟨∅, "c0ffee", "web"⟩⟩⟩ [] rfl (by
        intro e he
        simp only [List.mem_singleton] at he
        subst he
        rfl) rfl⟩

/-! ## The comparison made by `Reload` -/

theorem reloadFold_flag :
    ∀ (es : List ((_ : String) × String)) (m : GoMap String) (b : Bool), es.NodupKeys →
      (es.foldl (fun (acc : GoMap String × Bool) kv =>
        if kv.2 ≠ (acc.1.lookup kv.1).getD "" then (acc.1.insert kv.1 kv.2, true) else acc)
        (m, b)).2 = (b || es.any fun kv => decide (kv.2 ≠ (m.lookup kv.1).getD ""))
  | [], m, b, _ => by simp
  | ⟨K, V⟩ :: es, m, b, nd => by
    rw [List.nodupKeys_cons] at nd
    rw [List.foldl_cons, List.any_cons]
    by_cases hV : V = (m.lookup K).getD ""
    · have hstep : (if V ≠ (m.lookup K).getD "" then (m.insert K V, true) else (m, b)) = (m, b) := by
        simp [hV]
      simp only at hstep ⊢
      rw [hstep, reloadFold_flag es m b nd.2]
      simp [hV]
    · have hstep : (if V ≠ (m.lookup K).getD "" then (m.insert K V, true) else (m, b)) =
          (m.insert K V, true) := by
        simp [hV]
      simp only at hstep ⊢
      rw [hstep, reloadFold_flag es _ true nd.2]
      simp [hV]

theorem reloadFold_lookup (k : String) :
    ∀ (es : List ((_ : String) × String)) (m : GoMap String) (b : Bool), es.NodupKeys →
      (es.foldl (fun (acc : GoMap String × Bool) kv =>
        if kv.2 ≠ (acc.1.lookup kv.1).getD "" then (acc.1.insert kv.1 kv.2, true) else acc)
        (m, b)).1.lookup k =
        match es.dlookup k with
        | some v => if v = (m.lookup k).getD "" then m.lookup k else some v
        | none => m.lookup k
  | [], m, b, _ => by simp
  | ⟨K, V⟩ :: es, m, b, nd => by
    rw [List.nodupKeys_cons] at nd
    rw [List.foldl_cons]
    by_cases hK : k = K
    · subst hK
      have hnone : es.dlookup k = none := List.dlookup_eq_none.2 nd.1
      rw [List.dlookup_cons_eq]
      by_cases hV : V = (m.lookup k).getD ""
      · have hstep : (if V ≠ (m.lookup k).getD "" then (m.insert k V, true) else (m, b)) =
            (m, b) := by
          simp [hV]
        simp only at hstep ⊢
        rw [hstep, reloadFold_lookup k es m b nd.2, hnone]
        simp [hV]
      · have hstep : (if V ≠ (m.lookup k).getD "" then (m.insert k V, true) else (m, b)) =
            (m.insert k V, true) := by
          simp [hV]
        simp only at hstep ⊢
        rw [hstep, reloadFold_lookup k es _ true nd.2, hnone]
        simp [hV]
    · have hne : k ≠ (⟨K, V⟩ : (_ : String) × String).1 := hK
      rw [List.dlookup_cons_ne _ _ hne]
      by_cases hV : V = (m.lookup K).getD ""
      · have hstep : (if V ≠ (m.lookup K).getD "" then (m.insert K V, true) else (m, b)) =
            (m, b) := by
          simp [hV]
        simp only at hstep ⊢
        rw [hstep, reloadFold_lookup k es m b nd.2]
      · have hstep : (if V ≠ (m.lookup K).getD "" then (m.insert K V, true) else (m, b)) =
            (m.insert K V, true) := by
          simp [hV]
        simp only at hstep ⊢
        rw [hstep, reloadFold_lookup k es _ true nd.2, AList.lookup_insert_ne hK]

theorem reloadConfig_flag (c stored : GoMap String) :
    (reloadConfig c stored).2 = changedBy c stored := by
  unfold reloadConfig changedBy
  rw [reloadFold_flag c.entries stored false c.nodupKeys]
  simp

theorem reloadConfig_lookup (c stored : GoMap String) (k : String) :
    (reloadConfig c stored).1.lookup k =
      match c.lookup k with
      | some v => if v = (stored.lookup k).getD "" then stored.lookup k else some v
      | none => stored.lookup k := by
  unfold reloadConfig
  exact reloadFold_lookup k c.entries stored false c.nodupKeys

/-- After the inner loop a Go lookup in the stored configuration yields the
supplied value for every supplied key. -/
theorem reloadConfig_holds (c stored : GoMap String) (k v : String) (h : c.lookup k = some v) :
    ((reloadConfig c stored).1.lookup k).getD "" = v := by
  rw [reloadConfig_lookup, h]
  by_cases hv : v = (stored.lookup k).getD ""
  · simp only [hv, if_true]
  · simp [hv]

theorem changedBy_iff (c stored : GoMap String) :
    changedBy c stored = true ↔
      ∃ k v, c.lookup k = some v ∧ v ≠ (stored.lookup k).getD "" := by
  unfold changedBy
  rw [List.any_eq_true]
  constructor
  · rintro ⟨kv, hkv, h⟩
    exact ⟨kv.1, kv.2, AList.mem_lookup_iff.2 hkv, by simpa using h⟩
  · rintro ⟨k, v, hk, hv⟩
    exact ⟨⟨k, v⟩, AList.mem_lookup_iff.1 hk, by simpa using hv⟩

theorem changedBy_reloadConfig (c stored : GoMap String) :
    changedBy c (reloadConfig c stored).1 = false := by
  cases h : changedBy c (reloadConfig c stored).1 with
  | false => rfl
  | true =>
    obtain ⟨k, v, hk, hv⟩ := (changedBy_iff _ _).1 h
    exact absurd (reloadConfig_holds c stored k v hk).symm hv

theorem needsReload_iff (config : GoMap (GoMap String)) (e : (_ : String) × subLogger) :
    needsReload config e = true ↔
      ∃ c k v, config.lookup e.1 = some c ∧ c.lookup k = some v ∧
        v ≠ (e.2.info.Config.lookup k).getD "" := by
  unfold needsReload
  cases hc : config.lookup e.1 with
  | none => simp
  | some c =>
    simp only [changedBy_iff, Option.some.injEq]
    constructor
    · rintro ⟨k, v, h⟩
      exact ⟨c, k, v, rfl, h⟩
    · rintro ⟨c1, k, v, rfl, h⟩
      exact ⟨k, v, h⟩

theorem needsReload_mergedEntry (config : GoMap (GoMap String)) (name : String)
    (l : subLogger) : needsReload config ⟨name, mergedEntry config name l⟩ = false := by
  unfold needsReload mergedEntry
  cases hc : config.lookup name with
  | none => rfl
  | some c => exact changedBy_reloadConfig c l.info.Config

/-! ## The body of the loop of `Reload` -/

theorem reloadEntry_stored (env : Env) (config : GoMap (GoMap String)) (name : String)
    (l : subLogger) (tr : Trace) :
    (reloadEntry env config name l tr).2.1 = mergedEntry config name l := by
  unfold reloadEntry mergedEntry
  cases config.lookup name with
  | none => rfl
  | some c =>
    simp only
    split
    · cases env.GetLogDriver tr name with
      | error err => rfl
      | ok creator =>
        simp only
        split <;> rfl
    · rfl

theorem reloadEntry_unchanged (env : Env) (config : GoMap (GoMap String)) (name : String)
    (l : subLogger) (tr : Trace) (h : needsReload config ⟨name, l⟩ = false) :
    (reloadEntry env config name l tr).1 = none ∧ (reloadEntry env config name l tr).2.2 = tr := by
  unfold needsReload at h
  unfold reloadEntry
  cases hc : config.lookup name with
  | none => exact ⟨rfl, rfl⟩
  | some c =>
    rw [hc] at h
    have hflag : (reloadConfig c l.info.Config).2 = false := by
      rw [reloadConfig_flag]
      exact h
    simp [hflag]

theorem reloadEntry_lookup_failed (env : Env) (config : GoMap (GoMap String)) (name : String)
    (l : subLogger) (tr : Trace) (err : GoError) (h : needsReload config ⟨name, l⟩ = true)
    (hreg : env.GetLogDriver tr name = .error err) :
    (reloadEntry env config name l tr).1 = some err ∧
      (reloadEntry env config name l tr).2.2 = tr ++ [Event.GetLogDriver name (some err)] := by
  unfold needsReload at h
  unfold reloadEntry
  cases hc : config.lookup name with
  | none => simp [hc] at h
  | some c =>
    rw [hc] at h
    have hflag : (reloadConfig c l.info.Config).2 = true := by
      rw [reloadConfig_flag]
      exact h
    simp [hflag, hreg]

theorem reloadEntry_constructed (env : Env) (config : GoMap (GoMap String)) (name : String)
    (l : subLogger) (tr : Trace) (creator : Creator) (h : needsReload config ⟨name, l⟩ = true)
    (hreg : env.GetLogDriver tr name = .ok creator) :
    (reloadEntry env config name l tr).1 =
        (match creator (tr ++ [Event.GetLogDriver name none]) (mergedEntry config name l).info with
          | .error err => some err
          | .ok _ => none) ∧
      (reloadEntry env config name l tr).2.2 =
        tr ++ [Event.GetLogDriver name none,
          Event.Create name (mergedEntry config name l).info
            (creator (tr ++ [Event.GetLogDriver name none]) (mergedEntry config name l).info)] := by
  unfold needsReload at h
  unfold reloadEntry mergedEntry
  cases hc : config.lookup name with
  | none => simp [hc] at h
  | some c =>
    rw [hc] at h
    have hflag : (reloadConfig c l.info.Config).2 = true := by
      rw [reloadConfig_flag]
      exact h
    simp only [hflag, if_true, hreg]
    cases creator (tr ++ [Event.GetLogDriver name none])
        { l.info with Config := (reloadConfig c l.info.Config).1 } <;> simp

theorem reloadEntry_events (env : Env) (config : GoMap (GoMap String)) (name : String)
    (l : subLogger) (tr : Trace) :
    ∃ evs, (reloadEntry env config name l tr).2.2 = tr ++ evs ∧
      lookupCalls evs = (if needsReload config ⟨name, l⟩ = true then [name] else []) ∧
      (createCalls evs).map (fun c => c.1) <+: lookupCalls evs ∧
      ((reloadEntry env config name l tr).1 = none →
        (createCalls evs).map (fun c => c.1) = lookupCalls evs ∧
        ∀ ev ∈ evs, ev.failure = none) ∧
      ∀ err, (reloadEntry env config name l tr).1 = some err →
        needsReload config ⟨name, l⟩ = true ∧
        ∃ evs0 ev, evs = evs0 ++ [ev] ∧ ev.failure = some (name, err) ∧
          ∀ ev1 ∈ evs0, ev1.failure = none := by
  cases hn : needsReload config ⟨name, l⟩ with
  | false =>
    obtain ⟨h1, h2⟩ := reloadEntry_unchanged env config name l tr hn
    refine ⟨[], by simp [h2], by simp [lookupCalls], by simp [createCalls, lookupCalls], ?_, ?_⟩
    · intro _
      simp [createCalls, lookupCalls]
    · intro err herr
      rw [h1] at herr
      cases herr
  | true =>
    cases hreg : env.GetLogDriver tr name with
    | error err0 =>
      obtain ⟨h1, h2⟩ := reloadEntry_lookup_failed env config name l tr err0 hn hreg
      refine ⟨[Event.GetLogDriver name (some err0)], h2, by simp [lookupCalls],
        by simp [createCalls, lookupCalls], ?_, ?_⟩
      · intro h
        rw [h1] at h
        cases h
      · intro err herr
        rw [h1] at herr
        cases herr
        exact ⟨rfl, [], _, rfl, rfl, by simp⟩
    | ok creator =>
      obtain ⟨h1, h2⟩ := reloadEntry_constructed env config name l tr creator hn hreg
      refine ⟨_, h2, by simp [lookupCalls], by simp [createCalls, lookupCalls], ?_, ?_⟩
      · intro h
        rw [h1] at h
        refine ⟨by simp [createCalls, lookupCalls], ?_⟩
        intro ev hev
        simp only [List.mem_cons, List.mem_singleton, List.not_mem_nil, or_false] at hev
        rcases hev with rfl | rfl
        · rfl
        · cases hres : creator (tr ++ [Event.GetLogDriver name none])
              (mergedEntry config name l).info with
          | error e => simp [hres] at h
          | ok lg => rfl
      · intro err herr
        rw [h1] at herr
        refine ⟨rfl, [Event.GetLogDriver name none], _, rfl, ?_, ?_⟩
        · cases hres : creator (tr ++ [Event.GetLogDriver name none])
              (mergedEntry config name l).info with
          | error e =>
            simp only [hres, Option.some.injEq] at herr
            subst herr
            rfl
          | ok lg => simp [hres] at herr
        · intro ev1 hev1
          simp only [List.mem_singleton] at hev1
          subst hev1
          rfl

/-! ## The loop of `Reload` -/

theorem ReloadLoop_cons_some (env : Env) (config : GoMap (GoMap String))
    (e : (_ : String) × subLogger) (rest : List ((_ : String) × subLogger))
    (loggers : GoMap subLogger) (tr : Trace) (err : GoError)
    (h : (reloadEntry env config e.1 e.2 tr).1 = some err) :
    ReloadLoop env config (e :: rest) loggers tr =
      (some err, loggers.replace e.1 (reloadEntry env config e.1 e.2 tr).2.1,
        (reloadEntry env config e.1 e.2 tr).2.2) := by
  unfold ReloadLoop
  rcases hentry : reloadEntry env config e.1 e.2 tr with ⟨r, stored, tr1⟩
  rw [hentry] at h
  simp only at h
  subst h
  rfl

theorem ReloadLoop_cons_none (env : Env) (config : GoMap (GoMap String))
    (e : (_ : String) × subLogger) (rest : List ((_ : String) × subLogger))
    (loggers : GoMap subLogger) (tr : Trace)
    (h : (reloadEntry env config e.1 e.2 tr).1 = none) :
    ReloadLoop env config (e :: rest) loggers tr =
      ReloadLoop env config rest
        (loggers.replace e.1 (reloadEntry env config e.1 e.2 tr).2.1)
        (reloadEntry env config e.1 e.2 tr).2.2 := by
  conv_lhs => unfold ReloadLoop
  rcases hentry : reloadEntry env config e.1 e.2 tr with ⟨r, stored, tr1⟩
  rw [hentry] at h
  simp only at h
  subst h
  rfl

theorem ReloadLoop_keys (env : Env) (config : GoMap (GoMap String)) :
    ∀ (es : List ((_ : String) × subLogger)) (loggers : GoMap subLogger) (tr : Trace),
      (ReloadLoop env config es loggers tr).2.1.keys = loggers.keys
  | [], _, _ => rfl
  | e :: es, loggers, tr => by
    cases hr : (reloadEntry env config e.1 e.2 tr).1 with
    | some err =>
      rw [ReloadLoop_cons_some env config e es loggers tr err hr]
      exact AList.keys_replace _ _ _
    | none =>
      rw [ReloadLoop_cons_none env config e es loggers tr hr, ReloadLoop_keys env config es]
      exact AList.keys_replace _ _ _

theorem changedNames_cons (config : GoMap (GoMap String)) (e : (_ : String) × subLogger)
    (es : List ((_ : String) × subLogger)) :
    ((e :: es).filter (needsReload config)).map (fun e => e.1) =
      (if needsReload config e = true then [e.1] else []) ++
        (es.filter (needsReload config)).map (fun e => e.1) := by
  rw [List.filter_cons]
  split <;> simp

theorem ReloadLoop_trace (env : Env) (config : GoMap (GoMap String)) :
    ∀ (es : List ((_ : String) × subLogger)) (loggers : GoMap subLogger) (tr : Trace),
      ∃ evs, (ReloadLoop env config es loggers tr).2.2 = tr ++ evs ∧
        lookupCalls evs <+: (es.filter (needsReload config)).map (fun e => e.1) ∧
        (createCalls evs).map (fun c => c.1) <+: lookupCalls evs ∧
        ((ReloadLoop env config es loggers tr).1 = none →
          lookupCalls evs = (es.filter (needsReload config)).map (fun e => e.1) ∧
          (createCalls evs).map (fun c => c.1) = lookupCalls evs ∧
          ∀ ev ∈ evs, ev.failure = none)
  | [], loggers, tr => ⟨[], by simp [ReloadLoop, lookupCalls, createCalls]⟩
  | ⟨name, l⟩ :: es, loggers, tr => by
    obtain ⟨evsE, hE1, hE2, hE3, hE4, hE5⟩ := reloadEntry_events env config name l tr
    cases hr : (reloadEntry env config name l tr).1 with
    | some err =>
      rw [ReloadLoop_cons_some env config ⟨name, l⟩ es loggers tr err hr]
      obtain ⟨hn, -⟩ := hE5 err hr
      refine ⟨evsE, hE1, ?_, hE3, ?_⟩
      · rw [changedNames_cons, hE2]
        simp only [hn, if_true]
        exact List.prefix_append _ _
      · intro h
        cases h
    | none =>
      rw [ReloadLoop_cons_none env config ⟨name, l⟩ es loggers tr hr]
      obtain ⟨hc, hf⟩ := hE4 hr
      obtain ⟨evs, h1, h2, h3, h4⟩ := ReloadLoop_trace env config es
        (loggers.replace name (reloadEntry env config name l tr).2.1)
        (reloadEntry env config name l tr).2.2
      refine ⟨evsE ++ evs, ?_, ?_, ?_, ?_⟩
      · rw [h1, hE1, List.append_assoc]
      · rw [changedNames_cons, lookupCalls_append, hE2]
        exact (List.prefix_append_right_inj _).2 h2
      · rw [createCalls_append, List.map_append, lookupCalls_append, hc]
        exact (List.prefix_append_right_inj _).2 h3
      · intro h
        obtain ⟨h5, h6, h7⟩ := h4 h
        refine ⟨?_, ?_, ?_⟩
        · rw [changedNames_cons, lookupCalls_append, hE2, h5]
        · rw [createCalls_append, List.map_append, lookupCalls_append, hc, h6]
        · intro ev hev
          rcases List.mem_append.1 hev with hev | hev
          · exact hf ev hev
          · exact h7 ev hev

theorem ReloadLoop_fail (env : Env) (config : GoMap (GoMap String)) :
    ∀ (es : List ((_ : String) × subLogger)) (loggers : GoMap subLogger) (tr : Trace)
      (err : GoError), es.NodupKeys → (∀ e ∈ es, loggers.lookup e.1 = some e.2) →
      (ReloadLoop env config es loggers tr).1 = some err →
      ∃ pre e post evs0 ev, es = pre ++ e :: post ∧
        (ReloadLoop env config es loggers tr).2.2 = tr ++ evs0 ++ [ev] ∧
        ev.failure = some (e.1, err) ∧ (∀ ev1 ∈ evs0, ev1.failure = none) ∧
        needsReload config e = true ∧
        (ReloadLoop env config es loggers tr).2.1.lookup e.1 =
          some (mergedEntry config e.1 e.2) ∧
        ∀ e1 ∈ post, (ReloadLoop env config es loggers tr).2.1.lookup e1.1 = some e1.2
  | [], loggers, tr, err, _, _, h => by simp [ReloadLoop] at h
  | ⟨name, l⟩ :: es, loggers, tr, err, nd, hin, h => by
    rw [List.nodupKeys_cons] at nd
    obtain ⟨evsE, hE1, -, -, hE4, hE5⟩ := reloadEntry_events env config name l tr
    have hrest : ∀ e1 ∈ es, (loggers.replace name (reloadEntry env config name l tr).2.1).lookup e1.1
        = some e1.2 := by
      intro e1 he1
      have hne : e1.1 ≠ name := by
        intro e
        have hm : e1.1 ∈ es.keys := List.mem_keys_of_mem he1
        rw [e] at hm
        exact nd.1 hm
      rw [lookup_replace_ne _ _ _ _ hne]
      exact hin e1 (List.mem_cons_of_mem _ he1)
    cases hr : (reloadEntry env config name l tr).1 with
    | some err0 =>
      rw [ReloadLoop_cons_some env config ⟨name, l⟩ es loggers tr err0 hr] at h ⊢
      simp only [Option.some.injEq] at h
      subst h
      obtain ⟨hn, evs0, ev, hevs, hfail, hnofail⟩ := hE5 err0 hr
      have hmem : name ∈ loggers := by
        rw [← AList.lookup_isSome, hin ⟨name, l⟩ (List.mem_cons_self _ _)]
        rfl
      refine ⟨[], ⟨name, l⟩, es, evs0, ev, rfl, ?_, hfail, hnofail, hn, ?_, hrest⟩
      · simp only
        rw [hE1, hevs, List.append_assoc]
      · simp only
        rw [lookup_replace_self _ _ _ hmem, reloadEntry_stored]
    | none =>
      rw [ReloadLoop_cons_none env config ⟨name, l⟩ es loggers tr hr] at h ⊢
      obtain ⟨-, hf⟩ := hE4 hr
      obtain ⟨pre, e, post, evs0, ev, hes, htr, hfail, hnofail, hn, hlook, hpost⟩ :=
        ReloadLoop_fail env config es _ _ err nd.2 hrest h
      refine ⟨⟨name, l⟩ :: pre, e, post, evsE ++ evs0, ev, by rw [hes]; rfl, ?_, hfail, ?_,
        hn, hlook, hpost⟩
      · rw [htr, hE1]
        simp
      · intro ev1 hev1
        rcases List.mem_append.1 hev1 with hev1 | hev1
        · exact hf ev1 hev1
        · exact hnofail ev1 hev1

/-! ## `Reload`: membership, comparison, failure -/

theorem Reload_keys (env : Env) (l : teeLogger) (config : GoMap (GoMap String)) (tr : Trace) :
    (l.Reload env config tr).2.1.loggers.keys = l.loggers.keys :=
  ReloadLoop_keys env config l.loggers.entries l.loggers tr

theorem step_keys (env : Env) (l : teeLogger) (op : Op) (tr : Trace) :
    (l.step env op tr).1.loggers.keys = l.loggers.keys := by
  cases op with
  | Reload config => exact Reload_keys env l config tr
  | Log msg => rfl
  | Close => rfl
  | ReadLogs readConfig => rfl

theorem run_keys (env : Env) :
    ∀ (ops : List Op) (l : teeLogger) (tr : Trace),
      (teeLogger.run env l ops tr).1.loggers.keys = l.loggers.keys
  | [], _, _ => rfl
  | op :: ops, l, tr => by
    unfold teeLogger.run
    rw [run_keys env ops, step_keys]

/-- C11: the names held by a `teeLogger` never change after construction:
`Reload` returns a logger with the same key list whatever the configuration
names or omits and whether it succeeds or fails, `Log`, `Close` and `ReadLogs`
leave the logger as it is, and so the key list is the same after any sequence
of operations. -/
theorem keys_invariant (env : Env) (l : teeLogger) (tr : Trace) :
    (∀ config, (l.Reload env config tr).2.1.loggers.keys = l.loggers.keys) ∧
    (∀ op, (l.step env op tr).1.loggers.keys = l.loggers.keys) ∧
    (∀ ops, (teeLogger.run env l ops tr).1.loggers.keys = l.loggers.keys) :=
  ⟨fun config => Reload_keys env l config tr, fun op => step_keys env l op tr,
    fun ops => run_keys env ops l tr⟩

/-- C12, amended: `Reload` compares every key of the supplied configuration of a
sink with the stored configuration, a key that is not stored counting as the
empty string.  The sinks for which it looks up the registry are, in visiting
order, the first of the sinks having a supplied key with a different value; the
constructor is called for the first of those; and when `Reload` returns nil,
lookup and constructor have been called for exactly the sinks with such a
key. -/
theorem Reload_constructs_changed (env : Env) (l : teeLogger) (config : GoMap (GoMap String))
    (tr : Trace) :
    ∃ evs, (l.Reload env config tr).2.2 = tr ++ evs ∧
      lookupCalls evs <+: (l.loggers.entries.filter (needsReload config)).map (fun e => e.1) ∧
      (createCalls evs).map (fun c => c.1) <+: lookupCalls evs ∧
      ((l.Reload env config tr).1 = none →
        (createCalls evs).map (fun c => c.1) =
          (l.loggers.entries.filter (needsReload config)).map (fun e => e.1)) ∧
      ∀ e, needsReload config e = true ↔
        ∃ c k v, config.lookup e.1 = some c ∧ c.lookup k = some v ∧
          v ≠ (e.2.info.Config.lookup k).getD "" := by
  obtain ⟨evs, h1, h2, h3, h4⟩ := ReloadLoop_trace env config l.loggers.entries l.loggers tr
  refine ⟨evs, h1, h2, h3, ?_, needsReload_iff config⟩
  intro h
  obtain ⟨h5, h6, -⟩ := h4 h
  rw [h6, h5]

/-- Example for C12: `level` of `a` goes from `info` to `debug`, `b` is given
what it has; the constructor is called for `a` and for nothing else. -/
theorem Reload_constructs_changed_witness :
    (exampleLogger.Reload (exampleEnv ["a", "b"]) changedConfig []).1 = none ∧
    (exampleLogger.loggers.entries.filter (needsReload changedConfig)).map (fun e => e.1) = ["a"] ∧
    ∃ evs, (exampleLogger.Reload (exampleEnv ["a", "b"]) changedConfig []).2.2 = [] ++ evs ∧
      lookupCalls evs <+:
        (exampleLogger.loggers.entries.filter (needsReload changedConfig)).map (fun e => e.1) ∧
      (createCalls evs).map (fun c => c.1) <+: lookupCalls evs ∧
      ((exampleLogger.Reload (exampleEnv ["a", "b"]) changedConfig []).1 = none →
        (createCalls evs).map (fun c => c.1) =
          (exampleLogger.loggers.entries.filter (needsReload changedConfig)).map
            (fun e => e.1)) ∧
      ∀ e, needsReload changedConfig e = true ↔
        ∃ c k v, changedConfig.lookup e.1 = some c ∧ c.lookup k = some v ∧
          v ≠ (e.2.info.Config.lookup k).getD "" :=
  ⟨rfl, rfl, Reload_constructs_changed (exampleEnv ["a", "b"]) exampleLogger changedConfig []⟩

/-- C12 as stated fails: a key present only in the stored configuration
(`level`, stored for `a`, missing from the new configuration of `a`) and a key
present only in the new configuration with the empty value (`tag`) are
differences between the two configurations, yet `Reload` returns nil without
any registry lookup or constructor call. -/
theorem Reload_ignores_removed_key :
    ((∃ sub c, exampleLogger.loggers.lookup "a" = some sub ∧ removedConfig.lookup "a" = some c ∧
        c.lookup "level" ≠ sub.info.Config.lookup "level") ∧
      (exampleLogger.Reload (exampleEnv ["a", "b"]) removedConfig []).1 = none ∧
      lookupCalls (exampleLogger.Reload (exampleEnv ["a", "b"]) removedConfig []).2.2 = [] ∧
      createCalls (exampleLogger.Reload (exampleEnv ["a", "b"]) removedConfig []).2.2 = []) ∧
    ((∃ sub c, exampleLogger.loggers.lookup "a" = some sub ∧
        emptyValueConfig.lookup "a" = some c ∧
        c.lookup "tag" ≠ sub.info.Config.lookup "tag") ∧
      (exampleLogger.Reload (exampleEnv ["a", "b"]) emptyValueConfig []).1 = none ∧
      lookupCalls (exampleLogger.Reload (exampleEnv ["a", "b"]) emptyValueConfig []).2.2 = [] ∧
      createCalls (exampleLogger.Reload (exampleEnv ["a", "b"]) emptyValueConfig []).2.2 = []) :=
  ⟨⟨⟨⟨7, ⟨AList.singleton "level" "info", "c0ffee", "web"⟩⟩, ∅, rfl, rfl, by decide⟩,
      rfl, rfl, rfl⟩,
    ⟨⟨⟨7, ⟨AList.singleton "level" "info", "c0ffee", "web"⟩⟩,
        AList.insert "tag" "" (AList.singleton "level" "info"), rfl, rfl, by decide⟩,
      rfl, rfl, rfl⟩⟩

theorem Reload_failure_decompose (env : Env) (l : teeLogger) (config : GoMap (GoMap String))
    (tr evs : Trace) (ev : Event) (s : String) (err : GoError)
    (htr : (l.Reload env config tr).2.2 = tr ++ evs) (hev : ev ∈ evs)
    (hf : ev.failure = some (s, err)) :
    (l.Reload env config tr).1 = some err ∧
      ∃ pre sub post evs0, l.loggers.entries = pre ++ ⟨s, sub⟩ :: post ∧ evs = evs0 ++ [ev] ∧
        (∀ ev1 ∈ evs0, ev1.failure = none) ∧ needsReload config ⟨s, sub⟩ = true ∧
        (l.Reload env config tr).2.1.loggers.lookup s = some (mergedEntry config s sub) ∧
        ∀ e1 ∈ post, (l.Reload env config tr).2.1.loggers.lookup e1.1 = some e1.2 := by
  unfold teeLogger.Reload at htr ⊢
  simp only at htr ⊢
  cases hres : (ReloadLoop env config l.loggers.entries l.loggers tr).1 with
  | none =>
    obtain ⟨evs1, h1, -, -, h4⟩ := ReloadLoop_trace env config l.loggers.entries l.loggers tr
    rw [h1] at htr
    have := List.append_cancel_left htr
    subst this
    obtain ⟨-, -, h7⟩ := h4 hres
    rw [h7 ev hev] at hf
    cases hf
  | some err1 =>
    obtain ⟨pre, e, post, evs0, ev0, hes, h2, hfail, hnofail, hn, hlook, hpost⟩ :=
      ReloadLoop_fail env config l.loggers.entries l.loggers tr err1 l.loggers.nodupKeys
        (fun e he => AList.mem_lookup_iff.2 he) hres
    rw [h2, List.append_assoc] at htr
    have := List.append_cancel_left htr
    subst this
    have hev0 : ev = ev0 := by
      rcases List.mem_append.1 hev with h | h
      · rw [hnofail ev h] at hf
        cases hf
      · exact List.mem_singleton.1 h
    subst hev0
    rw [hfail] at hf
    simp only [Option.some.injEq, Prod.mk.injEq] at hf
    obtain ⟨hs, herr⟩ := hf
    subst herr
    obtain ⟨name, sub⟩ := e
    simp only at hs
    subst hs
    exact ⟨rfl, pre, sub, post, evs0, hes, rfl, hnofail, hn, hlook, hpost⟩

/-- C13: when a registry lookup or a constructor call fails during `Reload`,
`Reload` returns that error and makes no further call, and every entry that
comes after the failing one in the visiting order keeps its instance and its
stored configuration. -/
theorem Reload_failure_stops (env : Env) (l : teeLogger) (config : GoMap (GoMap String))
    (tr evs : Trace) (ev : Event) (s : String) (err : GoError)
    (htr : (l.Reload env config tr).2.2 = tr ++ evs) (hev : ev ∈ evs)
    (hf : ev.failure = some (s, err)) :
    (l.Reload env config tr).1 = some err ∧
      ∃ pre sub post evs0, l.loggers.entries = pre ++ ⟨s, sub⟩ :: post ∧ evs = evs0 ++ [ev] ∧
        (∀ ev1 ∈ evs0, ev1.failure = none) ∧
        ∀ e1 ∈ post, (l.Reload env config tr).2.1.loggers.lookup e1.1 = some e1.2 := by
  obtain ⟨h1, pre, sub, post, evs0, h2, h3, h4, -, -, h5⟩ :=
    Reload_failure_decompose env l config tr evs ev s err htr hev hf
  exact ⟨h1, pre, sub, post, evs0, h2, h3, h4, h5⟩

/-- Example for C13: the driver `a` is not registered any more and its `level`
changed; the lookup fails, `Reload` returns the error after that one call, and
the entry `b`, not yet visited, is as before. -/
theorem Reload_failure_stops_witness :
    (exampleLogger.Reload (exampleEnv ["b"]) changedConfig []).2.2 =
      [] ++ [Event.GetLogDriver "a" (some (.other "logger: no log driver named"))] ∧
    (exampleLogger.Reload (exampleEnv ["b"]) changedConfig []).1 =
      some (.other "logger: no log driver named") ∧
    ∃ pre sub post evs0, exampleLogger.loggers.entries = pre ++ ⟨"a", sub⟩ :: post ∧
      [Event.GetLogDriver "a" (some (.other "logger: no log driver named"))] =
        evs0 ++ [Event.GetLogDriver "a" (some (.other "logger: no log driver named"))] ∧
      (∀ ev1 ∈ evs0, ev1.failure = none) ∧
      ∀ e1 ∈ post,
        (exampleLogger.Reload (exampleEnv ["b"]) changedConfig []).2.1.loggers.lookup e1.1 =
          some e1.2 :=
  ⟨rfl, Reload_failure_stops (exampleEnv ["b"]) exampleLogger changedConfig []
    [Event.GetLogDriver "a" (some (.other "logger: no log driver named"))]
    (Event.GetLogDriver "a" (some (.other "logger: no log driver named"))) "a"
    (.other "logger: no log driver named") rfl (List.mem_singleton.2 rfl) rfl⟩

/-- C17: when the registry lookup or the constructor for the sink `s` fails
during `Reload`, the stored configuration of `s` already yields the supplied
value for every supplied key, so that a repeated `Reload` with the same
configuration, in whatever environment, makes no registry lookup and no
constructor call for `s`. -/
theorem Reload_failed_config_kept (env : Env) (l : teeLogger) (config : GoMap (GoMap String))
    (tr evs : Trace) (ev : Event) (s : String) (err : GoError)
    (htr : (l.Reload env config tr).2.2 = tr ++ evs) (hev : ev ∈ evs)
    (hf : ev.failure = some (s, err)) :
    (l.Reload env config tr).1 = some err ∧
    (∃ sub c, (l.Reload env config tr).2.1.loggers.lookup s = some sub ∧
      config.lookup s = some c ∧
      ∀ k v, c.lookup k = some v → (sub.info.Config.lookup k).getD "" = v) ∧
    ∀ (env2 : Env) (tr2 evs2 : Trace),
      ((l.Reload env config tr).2.1.Reload env2 config tr2).2.2 = tr2 ++ evs2 →
      s ∉ lookupCalls evs2 ∧ ∀ c ∈ createCalls evs2, c.1 ≠ s := by
  obtain ⟨h1, pre, sub, post, evs0, -, -, -, hn, hlook, -⟩ :=
    Reload_failure_decompose env l config tr evs ev s err htr hev hf
  refine ⟨h1, ?_, ?_⟩
  · obtain ⟨c, k0, v0, hc, -, -⟩ := (needsReload_iff config ⟨s, sub⟩).1 hn
    refine ⟨_, c, hlook, hc, ?_⟩
    intro k v hk
    have hm : (mergedEntry config s sub).info.Config = (reloadConfig c sub.info.Config).1 := by
      unfold mergedEntry
      simp only at hc
      rw [hc]
    rw [hm]
    exact reloadConfig_holds c sub.info.Config k v hk
  · intro env2 tr2 evs2 htr2
    obtain ⟨evs3, h3, hpre, hcre, -⟩ := ReloadLoop_trace env2 config
      (l.Reload env config tr).2.1.loggers.entries (l.Reload env config tr).2.1.loggers tr2
    have h3b : ((l.Reload env config tr).2.1.Reload env2 config tr2).2.2 = tr2 ++ evs3 := h3
    rw [h3b] at htr2
    have := List.append_cancel_left htr2
    subst this
    have hnot : s ∉ lookupCalls evs3 := by
      intro hmem
      have hmem2 := hpre.subset hmem
      rw [List.mem_map] at hmem2
      obtain ⟨e2, he2, hname⟩ := hmem2
      rw [List.mem_filter] at he2
      obtain ⟨he2, hneeds⟩ := he2
      obtain ⟨n2, sub2⟩ := e2
      simp only at hname
      subst hname
      have hl := AList.mem_lookup_iff.2 he2
      rw [hlook] at hl
      cases hl
      rw [needsReload_mergedEntry] at hneeds
      cases hneeds
    refine ⟨hnot, ?_⟩
    intro c hc hcs
    apply hnot
    apply hcre.subset
    rw [List.mem_map]
    exact ⟨c, hc, hcs⟩

/-- Example for C17: after the failed reload of `a` with `level = debug`, the
entry of `a` stores `level = debug`, and a second `Reload`, now with `a`
registered again, calls nothing. -/
theorem Reload_failed_config_kept_witness :
    ((exampleLogger.Reload (exampleEnv ["b"]) changedConfig []).2.1.loggers.lookup "a").map
      (fun x => (x.logger, x.info.Config.lookup "level")) = some (7, some "debug") ∧
    ((exampleLogger.Reload (exampleEnv ["b"]) changedConfig []).2.1.Reload
      (exampleEnv ["a", "b"]) changedConfig []).2.2 = [] ∧
    ((exampleLogger.Reload (exampleEnv ["b"]) changedConfig []).1 =
      some (.other "logger: no log driver named") ∧
    (∃ sub c, (exampleLogger.Reload (exampleEnv ["b"]) changedConfig []).2.1.loggers.lookup "a" =
        some sub ∧ changedConfig.lookup "a" = some c ∧
      ∀ k v, c.lookup k = some v → (sub.info.Config.lookup k).getD "" = v) ∧
    ∀ (env2 : Env) (tr2 evs2 : Trace),
      ((exampleLogger.Reload (exampleEnv ["b"]) changedConfig []).2.1.Reload env2 changedConfig
        tr2).2.2 = tr2 ++ evs2 →
      "a" ∉ lookupCalls evs2 ∧ ∀ c ∈ createCalls evs2, c.1 ≠ "a") :=
  ⟨rfl, rfl, Reload_failed_config_kept (exampleEnv ["b"]) exampleLogger changedConfig []
    [Event.GetLogDriver "a" (some (.other "logger: no log driver named"))]
    (Event.GetLogDriver "a" (some (.other "logger: no log driver named"))) "a"
    (.other "logger: no log driver named") rfl (List.mem_singleton.2 rfl) rfl⟩

end TeeLogger
